import Mathlib

/-!
A verification development for the AI-Constitutional-DAO governance core.

The TypeScript sources are embedded shallowly:

* numbers that the code manipulates as IEEE doubles (alignment scores,
  quorum fractions, multipliers) are modelled as rationals; all values
  appearing in the claims are exactly representable, and the arithmetic
  involved (`+`, `*`, `max`, `min`, `Math.floor`) is exact at those values;
* token amounts handled via `BigInt` are modelled as natural numbers
  (drops are unsigned integers);
* external primitives (node's `crypto.createHash('sha256')`,
  `zlib.deflateSync`, `JSON.parse`, `JSON.stringify` of verdict records)
  are parameters of the embedded functions: the repository treats them as
  opaque library calls, and none of the claims depends on their internals;
* `Map` objects keyed by strings are modelled as insertion-ordered
  association lists with the `Map.set` semantics of ECMAScript (updating
  an existing key keeps its position, a new key is appended).

Definitions follow the TypeScript fallback implementations (the native
Rust module is absent from the repository), file by file:
`packages/oracle-node/src/types.ts`, `voting/index.ts` (router and voting
system), the commit-reveal protocol module, `channels/channelA.ts`, and
`staking/fraudProof.ts`.
-/

namespace DAO

/-- Governance layers (`types.ts`, `GovernanceLayer`). -/
inductive GovernanceLayer
  | L0Immutable
  | L1Constitutional
  | L2Operational
  | L3Execution
deriving DecidableEq

/-- Decidability classes (`types.ts`, `DecidabilityClass`): a string enum
with values "I", "II", "III", "IV" (all truthy as JS values). -/
inductive DecidabilityClass
  | I
  | II
  | III
  | IV
deriving DecidableEq

/-- Channel A verdict (`types.ts`, `ChannelAVerdict`). -/
structure ChannelAVerdict where
  pass : Bool
  complexity_score : Nat
  paradox_found : Bool
  cycle_found : Bool
deriving DecidableEq

/-- Channel B verdict (`types.ts`, `ChannelBVerdict`); the optional
`reasoning` / `epistemic_flag` / `uncertainty_reason` strings are not
read by any embedded operation and are omitted. -/
structure ChannelBVerdict where
  semantic_alignment_score : ℚ
  decidability_class : DecidabilityClass
  ai_interest_conflict : Option Bool := none
deriving DecidableEq

/-- Friction parameters (`types.ts`, `FrictionParams`).
`timelock_duration` is produced by `Math.floor`, hence an integer. -/
structure FrictionParams where
  required_quorum : ℚ
  timelock_duration : ℤ
  alignment_score : ℚ
  quorum_multiplier : ℚ
  timelock_multiplier : ℚ
deriving DecidableEq

/-- `CONFIG.MAX_COMPLEXITY` (`types.ts`). -/
def MAX_COMPLEXITY : Nat := 10000

/-- `CONFIG.BASE_QUORUM` (`types.ts`). -/
def BASE_QUORUM : ℚ := 1 / 10

/-- `CONFIG.BASE_TIMELOCK` (`types.ts`), seconds. -/
def BASE_TIMELOCK : ℚ := 86400

/-- `CONFIG.ORACLE_QUORUM` (`types.ts`). -/
def ORACLE_QUORUM : ℚ := 2 / 3

/-- `calculateFriction` (`types.ts` lines 305-317). -/
def calculateFriction (alignmentScore : ℚ) : FrictionParams :=
  let score := max 0 (min 1 alignmentScore)
  let quorumMultiplier := 1 + (1 - score) * (1 / 2)
  let timelockMultiplier := 1 + (1 - score) * 2
  { required_quorum := BASE_QUORUM * quorumMultiplier
    timelock_duration := ⌊BASE_TIMELOCK * timelockMultiplier⌋
    alignment_score := score
    quorum_multiplier := quorumMultiplier
    timelock_multiplier := timelockMultiplier }

/-- `Number.MAX_SAFE_INTEGER`, used as the L0 timelock entry. -/
def MAX_SAFE_INTEGER : ℤ := 2 ^ 53 - 1

/-- One row of `LAYER_REQUIREMENTS` (router module): the partial friction
record only ever populates `required_quorum` and `timelock_duration`. -/
structure LayerRequirement where
  required_quorum : ℚ
  timelock_duration : ℤ

/-- `LAYER_REQUIREMENTS` (router module, lines 1162-1183). -/
def LAYER_REQUIREMENTS : GovernanceLayer → LayerRequirement
  | .L0Immutable => ⟨1, MAX_SAFE_INTEGER⟩
  | .L1Constitutional => ⟨67 / 100, 30 * 24 * 60 * 60⟩
  | .L2Operational => ⟨1 / 10, 24 * 60 * 60⟩
  | .L3Execution => ⟨1 / 20, 12 * 60 * 60⟩

/-- Routes (`Route` enum in the router module). -/
inductive Route
  | PoUW
  | StandardVoting
  | ConstitutionalJury
  | HumanMajorityJury
  | Rejected
  | Emergency
deriving DecidableEq

/-- Routing decision (`RoutingDecision`).  The `requirements` list holds
purely informational description strings; no embedded operation and no
claim reads it, so it is omitted here. -/
structure RoutingDecision where
  route : Route
  friction : FrictionParams
  reason : String
deriving DecidableEq

/-- The slice of `ProposalState` (`governance/proposal.ts`) that
`DecidabilityRouter.route` reads: the proposal's layer and the two
attached verdicts.  The remaining fields (proposal body, friction cache,
rejection reason, voting results, jury verdict) are never read by the
router's `route` method. -/
structure ProposalState where
  layer : GovernanceLayer
  channel_a_verdict : Option ChannelAVerdict
  channel_b_verdict : Option ChannelBVerdict

/-- `DecidabilityRouter.applyLayerRequirements` (router module,
lines 1417-1434). -/
def applyLayerRequirements (friction : FrictionParams)
    (layer : GovernanceLayer) : FrictionParams :=
  let layerReqs := LAYER_REQUIREMENTS layer
  { friction with
    required_quorum := max friction.required_quorum layerReqs.required_quorum
    timelock_duration := max friction.timelock_duration layerReqs.timelock_duration }

/-- `DecidabilityRouter.routeClassI` (lines 1245-1272). -/
def routeClassI (_proposal : ProposalState) (friction : FrictionParams) :
    RoutingDecision :=
  { route := .PoUW
    friction := friction
    reason := "Class I proposals are formally verifiable via PoUW marketplace" }

/-- `DecidabilityRouter.routeClassII` (lines 1277-1314). -/
def routeClassII (_proposal : ProposalState) (friction : FrictionParams) :
    RoutingDecision :=
  { route := .StandardVoting
    friction := friction
    reason := "Class II proposals proceed to standard voting with calculated friction" }

/-- `DecidabilityRouter.routeClassIII` (lines 1319-1351). -/
def routeClassIII (_proposal : ProposalState) (friction : FrictionParams) :
    RoutingDecision :=
  { route := .ConstitutionalJury
    friction := friction
    reason := "Class III proposals require human judgment from Constitutional Jury" }

/-- `DecidabilityRouter.routeClassIV` (lines 1365-1412). -/
def routeClassIV (_proposal : ProposalState) (friction : FrictionParams) :
    RoutingDecision :=
  let enhancedFriction : FrictionParams :=
    { friction with
      required_quorum := max friction.required_quorum (1 / 2)
      timelock_duration := max friction.timelock_duration (7 * 24 * 60 * 60)
      quorum_multiplier := friction.quorum_multiplier * (3 / 2)
      timelock_multiplier := friction.timelock_multiplier * 2 }
  { route := .HumanMajorityJury
    friction := enhancedFriction
    reason := "Class IV (AI Interest Conflict): Channel B has recused from judgment. Proposal affects AI welfare, rights, operational constraints, or existence. Routing to Human-Majority Jury per nemo iudex in causa sua principle." }

/-- `proposal.channel_b_verdict?.decidability_class ||
DecidabilityClass.II` (line 1214): the class is a non-empty string, and
JS `||` falls back only on a falsy left operand, so the fallback fires
exactly when the verdict is absent. -/
def routedDecidabilityClass : Option ChannelBVerdict → DecidabilityClass
  | some v => v.decidability_class
  | none => DecidabilityClass.II

/-- `proposal.channel_b_verdict?.semantic_alignment_score || 0.5`
(line 1218): the number `0` is falsy in JS, so the `0.5` fallback fires
both when the verdict is absent and when the stored score is exactly 0. -/
def routedAlignmentScore : Option ChannelBVerdict → ℚ
  | some v =>
    if v.semantic_alignment_score = 0 then 1 / 2
    else v.semantic_alignment_score
  | none => 1 / 2

/-- `DecidabilityRouter.route` (router module, lines 1192-1240). -/
def route (proposal : ProposalState) : RoutingDecision :=
  match proposal.channel_a_verdict with
  | some verdict =>
    if verdict.pass = false then
      { route := .Rejected
        friction := calculateFriction 0
        reason := "Failed Channel A deterministic verification" }
    else routeAfterChannelA proposal
  | none => routeAfterChannelA proposal
where
  /-- Continuation of `route` after the Channel-A hard gate. -/
  routeAfterChannelA (proposal : ProposalState) : RoutingDecision :=
    if proposal.layer = GovernanceLayer.L0Immutable then
      { route := .Rejected
        friction := calculateFriction 0
        reason := "L0 Immutable layer cannot be modified" }
    else
      let decidabilityClass := routedDecidabilityClass proposal.channel_b_verdict
      let alignmentScore := routedAlignmentScore proposal.channel_b_verdict
      let friction₀ := calculateFriction alignmentScore
      let friction := applyLayerRequirements friction₀ proposal.layer
      match decidabilityClass with
      | .I => routeClassI proposal friction
      | .II => routeClassII proposal friction
      | .III => routeClassIII proposal friction
      | .IV => routeClassIV proposal friction

/-! ## Voting system (`voting` module, `VotingSystem`) -/

/-- Vote options (`types.ts`, `Vote`). -/
inductive Vote
  | Yes
  | No
  | Abstain
deriving DecidableEq

/-- A recorded vote (`VoteRecord`).  The powers are `BigInt` values parsed
from decimal strings of drops; drops are unsigned. -/
structure VoteRecord where
  voter : String
  proposal_id : String
  vote : Vote
  voting_power : ℕ
  delegated_power : ℕ
  timestamp : ℕ

/-- Voting tally (`VotingTally`).  `participation_rate` is the JS number
`Number(totalParticipating * 10000n / supply) / 10000`. -/
structure VotingTally where
  proposal_id : String
  yes_power : ℕ
  no_power : ℕ
  abstain_power : ℕ
  total_participating : ℕ
  total_supply : ℕ
  participation_rate : ℚ
  quorum_reached : Bool
  passed : Bool
  unique_voters : ℕ
deriving DecidableEq

/-- The per-vote accumulation loop of `closeVotingPeriod`
(lines 344-362): yes, no and abstain power sums. -/
def tallyPowers (votes : List VoteRecord) : ℕ × ℕ × ℕ :=
  votes.foldl
    (fun acc vote =>
      let totalPower := vote.voting_power + vote.delegated_power
      match vote.vote with
      | .Yes => (acc.1 + totalPower, acc.2.1, acc.2.2)
      | .No => (acc.1, acc.2.1 + totalPower, acc.2.2)
      | .Abstain => (acc.1, acc.2.1, acc.2.2 + totalPower))
    (0, 0, 0)

/-- `VotingSystem.closeVotingPeriod` (lines 328-396), as a pure function
of the period's friction, the recorded votes of the proposal, and the
total supply.  The surrounding state bookkeeping (period lookup, marking
`is_open = false`, returning the stored record) carries no claim content.

`participationRate` embeds the source expression
`Number(totalParticipating * BigInt(10000) / supply) / 10000`:
a floor division by the supply at 4 decimal digits of precision. -/
def closeVotingPeriod (proposalId : String) (friction : FrictionParams)
    (proposalVotes : List VoteRecord) (totalSupply : ℕ) : VotingTally :=
  let powers := tallyPowers proposalVotes
  let yesPower := powers.1
  let noPower := powers.2.1
  let abstainPower := powers.2.2
  let totalParticipating := yesPower + noPower + abstainPower
  let participationRate : ℚ :=
    if 0 < totalSupply then ((totalParticipating * 10000) / totalSupply : ℕ) / 10000
    else 0
  let quorumReached := decide (friction.required_quorum ≤ participationRate)
  let passed := quorumReached && decide (noPower < yesPower)
  { proposal_id := proposalId
    yes_power := yesPower
    no_power := noPower
    abstain_power := abstainPower
    total_participating := totalParticipating
    total_supply := totalSupply
    participation_rate := participationRate
    quorum_reached := quorumReached
    passed := passed
    unique_voters := proposalVotes.length }

/-! ## Commit-reveal protocol (`CommitRevealProtocol`)

JS `Map` objects are embedded as insertion-ordered association lists:
`Map.set` on an existing key replaces the value in place, on a new key it
appends; `Map.values()` and `Map.keys()` iterate in insertion order. -/

/-- `Map.get`. -/
def mapGet {α : Type} (m : List (String × α)) (k : String) : Option α :=
  (m.find? (fun e => e.1 = k)).map (fun e => e.2)

/-- `Map.set`: replace in place when the key exists (a JS `Map` holds
each key once, so the first occurrence is the only one), append
otherwise. -/
def mapSet {α : Type} (m : List (String × α)) (k : String) (v : α) :
    List (String × α) :=
  match m with
  | [] => [(k, v)]
  | e :: rest => if e.1 = k then (k, v) :: rest else e :: mapSet rest k v

/-- Combined per-oracle verdict (`OracleVerdict`). -/
structure OracleVerdict where
  channel_a : ChannelAVerdict
  channel_b : ChannelBVerdict
  timestamp : ℕ
deriving DecidableEq

/-- `Commitment`. -/
structure Commitment where
  proposal_id : String
  commitment_hash : String
  oracle_address : String
  ledger_index : ℕ
  timestamp : ℕ
deriving DecidableEq

/-- `Reveal`. -/
structure Reveal where
  proposal_id : String
  verdict : OracleVerdict
  nonce : String
  oracle_address : String
  ledger_index : ℕ
deriving DecidableEq

/-- `ProtocolPhase`. -/
inductive ProtocolPhase
  | Idle
  | CommitPhase
  | RevealPhase
  | Tallying
  | Complete
deriving DecidableEq

/-- `ProposalProtocolState` (without the cached `result`, which is only
written at the end of `tally`). -/
structure ProposalProtocolState where
  proposal_id : String
  phase : ProtocolPhase
  commit_deadline : ℕ
  reveal_deadline : ℕ
  commitments : List (String × Commitment)
  reveals : List (String × Reveal)

/-- The protocol manager's `states` map, keyed by proposal id. -/
def ProtocolStates : Type := List (String × ProposalProtocolState)

/-- `CommitRevealProtocol.hashCommitment` (lines 466-471):
`sha256(JSON.stringify(verdict) + nonce)`, hex-encoded.  `sha256hex` and
`stringifyVerdict` stand for node's `crypto` SHA-256 and the JS
`JSON.stringify` of the verdict record, both external primitives. -/
def hashCommitment (sha256hex : String → String)
    (stringifyVerdict : OracleVerdict → String)
    (verdict : OracleVerdict) (nonce : String) : String :=
  sha256hex (stringifyVerdict verdict ++ nonce)

/-- `CommitRevealProtocol.verifyCommitment` (lines 178-189). -/
def verifyCommitment (sha256hex : String → String)
    (stringifyVerdict : OracleVerdict → String)
    (commitment_hash : String) (verdict : OracleVerdict) (nonce : String) :
    Bool :=
  hashCommitment sha256hex stringifyVerdict verdict nonce = commitment_hash

/-- `CommitRevealProtocol.processCommitment` (lines 313-321): look up the
proposal's state (silently ignore an unknown proposal) and store the
commitment under the oracle's address.  There is no phase check, no
deadline check, and no duplicate check. -/
def processCommitment (states : ProtocolStates) (commitment : Commitment) :
    ProtocolStates :=
  match mapGet states commitment.proposal_id with
  | none => states
  | some state =>
    mapSet states commitment.proposal_id
      { state with
        commitments :=
          mapSet state.commitments commitment.oracle_address commitment }

/-- `CommitRevealProtocol.processReveal` (lines 326-348): returns whether
the reveal was accepted, together with the updated states map.  The
checks are: a protocol state exists, the oracle has a commitment, and the
commitment hash matches; there is no phase or deadline check. -/
def processReveal (sha256hex : String → String)
    (stringifyVerdict : OracleVerdict → String)
    (states : ProtocolStates) (reveal : Reveal) : Bool × ProtocolStates :=
  match mapGet states reveal.proposal_id with
  | none => (false, states)
  | some state =>
    match mapGet state.commitments reveal.oracle_address with
    | none => (false, states)
    | some commitment =>
      if verifyCommitment sha256hex stringifyVerdict
          commitment.commitment_hash reveal.verdict reveal.nonce then
        (true,
          mapSet states reveal.proposal_id
            { state with
              reveals := mapSet state.reveals reveal.oracle_address reveal })
      else (false, states)

/-- `CommitRevealProtocol.submitCommitment` (lines 194-243), the local
oracle's submission path.  The wallet, the random nonce and the XRPL
submission are external; the nonce and the transaction's ledger index are
passed in.  Errors are the thrown `Error` messages.  On success it
returns the commitment hash and the updated states map. -/
def submitCommitment (sha256hex : String → String)
    (stringifyVerdict : OracleVerdict → String)
    (states : ProtocolStates) (walletAddress : String) (proposalId : String)
    (verdict : OracleVerdict) (nonce : String) (ledgerIndex now : ℕ) :
    Except String (String × ProtocolStates) :=
  match mapGet states proposalId with
  | none => .error "No protocol state for proposal"
  | some state =>
    if state.phase ≠ ProtocolPhase.CommitPhase then
      .error "Not in commit phase"
    else if state.commit_deadline < now then
      .error "Commit deadline has passed"
    else
      let commitment_hash :=
        hashCommitment sha256hex stringifyVerdict verdict nonce
      let commitment : Commitment :=
        { proposal_id := proposalId
          commitment_hash := commitment_hash
          oracle_address := walletAddress
          ledger_index := ledgerIndex
          timestamp := now }
      .ok (commitment_hash,
        mapSet states proposalId
          { state with
            commitments :=
              mapSet state.commitments walletAddress commitment })

/-- Channel B consensus record produced at tally: the `channelBConsensus`
object literal (lines 415-418) populates only the score and the class. -/
def mkChannelBConsensus (score : ℚ) (cls : DecidabilityClass) :
    ChannelBVerdict :=
  { semantic_alignment_score := score
    decidability_class := cls
    ai_interest_conflict := none }

/-- The class-count / majority-class computation of `tally`
(lines 407-413).  The JS `classCounts` literal has exactly the keys
`I`, `II`, `III` (in that insertion order); `Object.entries` lists them in
that order and the stable descending sort by count places, among the
entries of maximal count, the earliest key first.  So the selected class
is the first of I, II, III attaining the maximal count.

A class-IV reveal hits a missing key: `classCounts['IV']++` stores `NaN`,
and the subsequent sort order of a `NaN` entry is not defined by
ECMAScript (the comparator is inconsistent); that case is outside this
model, and every theorem about the consensus class assumes no class-IV
reveal. -/
def majorityClass (classes : List DecidabilityClass) : DecidabilityClass :=
  let cI := classes.count DecidabilityClass.I
  let cII := classes.count DecidabilityClass.II
  let cIII := classes.count DecidabilityClass.III
  if cII ≤ cI ∧ cIII ≤ cI then DecidabilityClass.I
  else if cIII ≤ cII then DecidabilityClass.II
  else DecidabilityClass.III

/-- Aggregated verdict (`AggregatedVerdict`). -/
structure AggregatedVerdict where
  proposal_id : String
  participation_count : ℕ
  total_oracles : ℕ
  quorum_reached : Bool
  channel_a_consensus : Option ChannelAVerdict
  channel_b_consensus : Option ChannelBVerdict
  reveals : List Reveal
  non_revealers : List String

/-- The Channel A majority-vote block of `tally` (lines 387-398):
majority on `pass` with ties toward fail; the representative verdict is
the first reveal on the winning side. -/
def tallyChannelA (reveals : List Reveal) : Option ChannelAVerdict :=
  let passVotes :=
    (reveals.filter (fun r => r.verdict.channel_a.pass)).length
  let failVotes := reveals.length - passVotes
  if failVotes < passVotes then
    (reveals.find? (fun r => r.verdict.channel_a.pass)).map
      (fun r => r.verdict.channel_a)
  else
    (reveals.find? (fun r => ¬ r.verdict.channel_a.pass)).map
      (fun r => r.verdict.channel_a)

/-- The Channel B averaging block of `tally` (lines 400-418): mean
alignment score and the `classCounts` majority class. -/
def tallyChannelB (reveals : List Reveal) : ChannelBVerdict :=
  mkChannelBConsensus
    ((reveals.map
      (fun r => r.verdict.channel_b.semantic_alignment_score)).sum
      / (reveals.length : ℚ))
    (majorityClass
      (reveals.map (fun r => r.verdict.channel_b.decidability_class)))

/-- `CommitRevealProtocol.tally` (lines 363-436) on the proposal's state
(`throw` on an unknown proposal is the `none` case; the phase writes on
the stored state carry no claim content and are dropped). -/
def tally (states : ProtocolStates) (proposalId : String)
    (totalOracles : ℕ) : Option AggregatedVerdict :=
  match mapGet states proposalId with
  | none => none
  | some state =>
    let reveals := state.reveals.map (fun e => e.2)
    let commitAddresses := state.commitments.map (fun e => e.1)
    let revealAddresses := state.reveals.map (fun e => e.1)
    let nonRevealers :=
      commitAddresses.filter (fun addr => ¬ addr ∈ revealAddresses)
    let quorumThreshold := Nat.ceil ((totalOracles : ℚ) * ORACLE_QUORUM)
    let quorumReached := decide (quorumThreshold ≤ reveals.length)
    let consensus :
        Option ChannelAVerdict × Option ChannelBVerdict :=
      if quorumReached ∧ 0 < reveals.length then
        (tallyChannelA reveals, some (tallyChannelB reveals))
      else (none, none)
    some
      { proposal_id := proposalId
        participation_count := reveals.length
        total_oracles := totalOracles
        quorum_reached := quorumReached
        channel_a_consensus := consensus.1
        channel_b_consensus := consensus.2
        reveals := reveals
        non_revealers := nonRevealers }

/-! ## JSON values and the canonicalizer (`channels/channelA.ts`)

`JSON.parse` is a JS builtin; the embedding works with its result: a tree
of JSON values.  A number is carried as its canonical decimal literal
(the shortest round-trip serialization that `JSON.stringify` would emit
for the parsed double), since no embedded operation inspects numbers
beyond re-serializing them and testing truthiness.  An object is the
insertion-ordered entry list produced by the parser.  A proposal whose
raw `logic_ast` string is not valid JSON is represented by the parse
error itself (`Except.error`). -/

inductive Json where
  | null : Json
  | bool : Bool → Json
  | num : List Char → Json
  | str : List Char → Json
  | arr : List Json → Json
  | obj : List (String × Json) → Json

/-- Size of a member of a list bounds the list's size. -/
theorem sizeOf_lt_of_mem_list {α : Type} [SizeOf α] {a : α} {l : List α}
    (h : a ∈ l) : sizeOf a < sizeOf l := by
  induction l with
  | nil => cases h
  | cons b t ih =>
    rcases List.mem_cons.mp h with rfl | hmem
    · simp only [List.cons.sizeOf_spec]; omega
    · have := ih hmem
      simp only [List.cons.sizeOf_spec]; omega

/-- JS object-property semantics on an entry list: `Object.keys` order is
first occurrence, the stored value is the last occurrence; this is also
what repeated assignment (`sorted[key] = ...`) produces.  `mapSet` embeds
exactly that, so folding it over the entries dedups an entry list. -/
def dedupEntries (es : List (String × Json)) : List (String × Json) :=
  es.foldl (fun acc e => mapSet acc e.1 e.2) []

/-- Every entry surviving `mapSet` was already present or is the one set. -/
theorem mem_mapSet {α : Type} {m : List (String × α)} {k : String} {v : α}
    {e : String × α} (h : e ∈ mapSet m k v) : e ∈ m ∨ e = (k, v) := by
  induction m with
  | nil => exact Or.inr (List.mem_singleton.mp h)
  | cons f t ih =>
    unfold mapSet at h
    by_cases hf : f.1 = k
    · rw [if_pos hf] at h
      rcases List.mem_cons.mp h with rfl | h2
      · exact Or.inr rfl
      · exact Or.inl (List.mem_cons_of_mem f h2)
    · rw [if_neg hf] at h
      rcases List.mem_cons.mp h with rfl | h2
      · exact Or.inl (List.mem_cons_self _ _)
      · rcases ih h2 with h3 | h3
        · exact Or.inl (List.mem_cons_of_mem f h3)
        · exact Or.inr h3

/-- Elements produced by folding `mapSet` come from the accumulator or
the folded list. -/
theorem mem_foldl_mapSet :
    ∀ (es acc : List (String × Json)) (e : String × Json),
      e ∈ es.foldl (fun acc f => mapSet acc f.1 f.2) acc →
      e ∈ acc ∨ e ∈ es := by
  intro es
  induction es with
  | nil => intro acc e h; exact Or.inl h
  | cons f t ih =>
    intro acc e h
    simp only [List.foldl_cons] at h
    rcases ih _ _ h with h3 | h3
    · rcases mem_mapSet h3 with h4 | h4
      · exact Or.inl h4
      · exact Or.inr (by simp [h4])
    · exact Or.inr (List.mem_cons_of_mem _ h3)

/-- Entries of the dedup of `es` are entries of `es`. -/
theorem mem_dedupEntries {es : List (String × Json)} {e : String × Json}
    (h : e ∈ dedupEntries es) : e ∈ es := by
  rcases mem_foldl_mapSet es [] e h with h2 | h2
  · cases h2
  · exact h2

/-- An entry's value is smaller than the object holding the entry. -/
theorem sizeOf_val_lt_obj {e : String × Json} {es : List (String × Json)}
    (h : e ∈ es) : sizeOf e.2 < sizeOf (Json.obj es) := by
  have h1 := sizeOf_lt_of_mem_list h
  have h2 : sizeOf e.2 < sizeOf e := by
    obtain ⟨k, v⟩ := e
    simp only [Prod.mk.sizeOf_spec]; omega
  simp only [Json.obj.sizeOf_spec]; omega

/-- An element is smaller than the array holding it. -/
theorem sizeOf_elem_lt_arr {e : Json} {es : List Json} (h : e ∈ es) :
    sizeOf e < sizeOf (Json.arr es) := by
  have h1 := sizeOf_lt_of_mem_list h
  simp only [Json.arr.sizeOf_spec]; omega

/-- UTF-16 code units of a character (JS strings are UTF-16). -/
def utf16Units (c : Char) : List ℕ :=
  if c.toNat < 0x10000 then [c.toNat]
  else [0xD800 + (c.toNat - 0x10000) / 0x400,
        0xDC00 + (c.toNat - 0x10000) % 0x400]

/-- Lexicographic comparison of code-unit sequences. -/
def unitsLt : List ℕ → List ℕ → Bool
  | [], [] => false
  | [], _ :: _ => true
  | _ :: _, [] => false
  | a :: as, b :: bs =>
    if a < b then true else if b < a then false else unitsLt as bs

/-- The default JS string comparison (`Array.prototype.sort` with no
comparator, and `<` on strings): lexicographic on UTF-16 code units. -/
def jsStrLt (a b : String) : Bool :=
  unitsLt ((a.data.map utf16Units).flatten) ((b.data.map utf16Units).flatten)

/-- Insert an entry into a key-sorted entry list. -/
def insertEntry (e : String × Json) :
    List (String × Json) → List (String × Json)
  | [] => [e]
  | f :: rest =>
    if jsStrLt e.1 f.1 then e :: f :: rest else f :: insertEntry e rest

/-- Sort an entry list by key in the default JS string order
(`Object.keys(obj).sort()` with the values re-attached). -/
def sortEntries : List (String × Json) → List (String × Json)
  | [] => []
  | e :: rest => insertEntry e (sortEntries rest)

/- `sortObjectKeys` (`channelA.ts` lines 278-290): arrays map
recursively, objects are rebuilt with keys sorted (one property per key:
first-occurrence position, last-assigned value, as JS objects hold
them), scalars pass through.  The JS code reads each deduplicated key's
value and recurses into it; recursing into every entry value first and
deduplicating afterwards produces the same entries, since the recursion
is per-value. -/
mutual

/-- `sortObjectKeys`, see the comment above the block. -/
def sortObjectKeys : Json → Json
  | .null => .null
  | .bool b => .bool b
  | .num lit => .num lit
  | .str s => .str s
  | .arr es => .arr (sortArrVals es)
  | .obj es => .obj (sortEntries (dedupEntries (sortObjVals es)))

/-- `sortObjectKeys` mapped over array elements. -/
def sortArrVals : List Json → List Json
  | [] => []
  | x :: xs => sortObjectKeys x :: sortArrVals xs

/-- `sortObjectKeys` mapped over object entry values. -/
def sortObjVals : List (String × Json) → List (String × Json)
  | [] => []
  | e :: es => (e.1, sortObjectKeys e.2) :: sortObjVals es

end

/-- Literal characters that the string-rule forbids writing directly. -/
def lbraceChar : Char := Char.ofNat 123

def rbraceChar : Char := Char.ofNat 125

def quoteChar : Char := Char.ofNat 34

def backslashChar : Char := Char.ofNat 92

/-- Lowercase hex digit. -/
def hexDigit (n : ℕ) : Char :=
  if n < 10 then Char.ofNat (48 + n) else Char.ofNat (87 + n)

/-- `JSON.stringify` escaping of one string character: escape-minimal
(quote, backslash, the short control escapes, `\u00XX` otherwise for
control characters). -/
def escapeJsonChar (c : Char) : List Char :=
  if c = quoteChar then [backslashChar, quoteChar]
  else if c = backslashChar then [backslashChar, backslashChar]
  else if c.toNat = 8 then [backslashChar, 'b']
  else if c.toNat = 9 then [backslashChar, 't']
  else if c.toNat = 10 then [backslashChar, 'n']
  else if c.toNat = 12 then [backslashChar, 'f']
  else if c.toNat = 13 then [backslashChar, 'r']
  else if c.toNat < 32 then
    [backslashChar, 'u', '0', '0', hexDigit (c.toNat / 16), hexDigit (c.toNat % 16)]
  else [c]

/-- Serialized JSON string literal. -/
def stringifyStr (s : List Char) : List Char :=
  quoteChar :: (s.map escapeJsonChar).flatten ++ [quoteChar]

/- `JSON.stringify` with no spacing, as `channelA.ts` uses it: objects
are emitted in property order, elements and entries comma-separated.
(`undefined` / function pruning cannot arise from parsed JSON.) -/
mutual

/-- `JSON.stringify`, see the comment above the block. -/
def stringify : Json → List Char
  | .null => "null".data
  | .bool true => "true".data
  | .bool false => "false".data
  | .num lit => lit
  | .str s => stringifyStr s
  | .arr es => '[' :: stringifyArr es ++ [']']
  | .obj es => lbraceChar :: stringifyObj es ++ [rbraceChar]

/-- Comma-separated array elements. -/
def stringifyArr : List Json → List Char
  | [] => []
  | [x] => stringify x
  | x :: xs => stringify x ++ ',' :: stringifyArr xs

/-- Comma-separated `"key":value` object entries. -/
def stringifyObj : List (String × Json) → List Char
  | [] => []
  | [e] => stringifyStr e.1.data ++ ':' :: stringify e.2
  | e :: es => (stringifyStr e.1.data ++ ':' :: stringify e.2) ++ ',' :: stringifyObj es

end

/-! ## Text normalization and the paradox regexes -/

/-- JS `\w` (regex word character): `[A-Za-z0-9_]`. -/
def isWordChar (c : Char) : Bool :=
  let n := c.toNat
  ((97 ≤ n ∧ n ≤ 122) ∨ (65 ≤ n ∧ n ≤ 90) ∨ (48 ≤ n ∧ n ≤ 57) ∨ n = 95)

/-- JS `\s` (regex whitespace), which is also the set trimmed by
`String.prototype.trim`. -/
def isWs (c : Char) : Bool :=
  let n := c.toNat
  (n = 32 ∨ (9 ≤ n ∧ n ≤ 13) ∨ n = 0xA0 ∨ n = 0x1680 ∨
    (0x2000 ≤ n ∧ n ≤ 0x200A) ∨ n = 0x2028 ∨ n = 0x2029 ∨ n = 0x202F ∨
    n = 0x205F ∨ n = 0x3000 ∨ n = 0xFEFF)

/- `.replace(/\s+/g, ' ')`: each maximal whitespace run becomes one
U+0020.  `collapseWs` emits the single space on entering a run;
`collapseAfterWs` consumes the rest of that run. -/
mutual

/-- Whitespace-run collapsing, see the comment above the block. -/
def collapseWs : List Char → List Char
  | [] => []
  | c :: cs =>
    if isWs c then ' ' :: collapseAfterWs cs else c :: collapseWs cs

/-- Continuation of `collapseWs` inside a whitespace run whose single
replacement space has already been emitted. -/
def collapseAfterWs : List Char → List Char
  | [] => []
  | c :: cs =>
    if isWs c then collapseAfterWs cs else c :: collapseWs cs

end

/-- `String.prototype.trim`. -/
def trimWs (l : List Char) : List Char :=
  ((l.dropWhile (fun c => isWs c)).reverse.dropWhile (fun c => isWs c)).reverse

/-- The text normalization of `canonicalize` (`channelA.ts` lines
108-112): lowercase, drop characters that are neither word characters nor
whitespace, collapse whitespace runs, trim.  `Char.toLower` models
`String.prototype.toLowerCase` character-wise (exact on the ASCII range,
where all claim-relevant inputs live). -/
def normalizeText (text : List Char) : List Char :=
  trimWs (collapseWs
    ((text.map Char.toLower).filter (fun c => isWordChar c ∨ isWs c)))

/-- Atoms of the pinned paradox regexes: every pattern in the repository
is a concatenation of literals, literal alternations, `.*`, `\s*` and
`\s+`. -/
inductive ReAtom where
  | lit : List Char → ReAtom
  | alt : List (List Char) → ReAtom
  | anyStar : ReAtom
  | wsStar : ReAtom
  | wsPlus : ReAtom

/-- `.` in a JS regex without the `s` flag: any char except a line
terminator. -/
def isReDot (c : Char) : Bool :=
  ¬ (c.toNat = 10 ∨ c.toNat = 13 ∨ c.toNat = 0x2028 ∨ c.toNat = 0x2029)

/-- Match a sequence of atoms against a prefix of `cs` (what remains
after the matched part is irrelevant, as in an unanchored JS regex). -/
def matchAtoms : List ReAtom → List Char → Bool
  | [], _ => true
  | .lit s :: rest, cs =>
    decide (cs.take s.length = s) && matchAtoms rest (cs.drop s.length)
  | .alt ss :: rest, cs =>
    ss.any (fun s =>
      decide (cs.take s.length = s) && matchAtoms rest (cs.drop s.length))
  | .anyStar :: rest, cs =>
    (List.range (cs.length + 1)).any (fun k =>
      (cs.take k).all (fun c => isReDot c) && matchAtoms rest (cs.drop k))
  | .wsStar :: rest, cs =>
    (List.range (cs.length + 1)).any (fun k =>
      (cs.take k).all (fun c => isWs c) && matchAtoms rest (cs.drop k))
  | .wsPlus :: rest, cs =>
    (List.range (cs.length + 1)).any (fun k =>
      decide (1 ≤ k) && (cs.take k).all (fun c => isWs c) &&
        matchAtoms rest (cs.drop k))

/-- `RegExp.prototype.test`: a match exists starting anywhere. -/
def reTest (pat : List ReAtom) (cs : List Char) : Bool :=
  (List.range (cs.length + 1)).any (fun s => matchAtoms pat (cs.drop s))

/-- The three pinned paradox patterns of `detectParadox`
(`channelA.ts` lines 147-151), written over lowercased input (the
patterns carry the `i` flag and their literals are lowercase). -/
def paradoxPatterns : List (List ReAtom) :=
  [[.alt ["this proposal".data, "the motion".data], .anyStar,
    .alt ["passes".data, "fails".data], .wsStar, .lit "iff".data, .anyStar,
    .alt ["fails".data, "passes".data]],
   [.alt ["this rule".data, "the following statement".data], .wsStar,
    .lit "is".data, .wsStar, .lit "false".data],
   [.lit "if".data, .wsPlus, .lit "this".data, .anyStar,
    .alt ["true".data, "passes".data], .anyStar, .lit "then".data, .anyStar,
    .alt ["false".data, "fails".data]]]

/-- `detectParadox` (`channelA.ts` lines 141-154). -/
def detectParadox (text : List Char) : Bool :=
  paradoxPatterns.any (fun pat => reTest pat (text.map Char.toLower))

/-! ## Cycle detection (`detectCycles`, `channelA.ts` lines 159-210) -/

/-- JS property read `obj[k]` on a parsed-JSON object: the value of the
last occurrence of the key. -/
def objGet (es : List (String × Json)) (k : String) : Option Json :=
  (es.reverse.find? (fun e => e.1 = k)).map (fun e => e.2)

/-- JS truthiness of a JSON value (`null`, `false`, `0`, `""` are falsy;
objects and arrays are truthy). -/
def truthy : Json → Bool
  | .null => false
  | .bool b => b
  | .num lit => ¬ (lit = "0".data ∨ lit = "-0".data)
  | .str s => ¬ s = []
  | .arr _ => true
  | .obj _ => true

/-- `node.dependencies || node.deps || node.requires || []` followed by
`Array.isArray(deps) ? deps : []`: the first truthy of the three
properties, kept only if it is an array.  Property reads on non-objects
(arrays included) yield `undefined` here. -/
def depsList (j : Json) : List Json :=
  match j with
  | .obj es =>
    let chain :=
      match objGet es "dependencies" with
      | some v => if truthy v then some v else none
      | none => none
    let chain :=
      match chain with
      | some v => some v
      | none =>
        match objGet es "deps" with
        | some v => if truthy v then some v else none
        | none => none
    let chain :=
      match chain with
      | some v => some v
      | none =>
        match objGet es "requires" with
        | some v => if truthy v then some v else none
        | none => none
    match chain with
    | some (.arr l) => l
    | _ => []
  | _ => []

/-- `typeof x === 'object' && x !== null`. -/
def isObjectLike : Json → Bool
  | .arr _ => true
  | .obj _ => true
  | _ => false

/-- The `for (const key of Object.keys(node))` iteration together with
the `node[key]` reads: for an object, keys in first-occurrence order with
last-occurrence values; for an array, the index keys with the elements. -/
def childEntries : Json → List (String × Json)
  | .obj es => dedupEntries es
  | .arr l => (l.enum.map (fun x => (toString x.1, x.2)))
  | _ => []

/-- Values of `childEntries` are structurally smaller. -/
theorem sizeOf_childEntries_lt {j : Json} {e : String × Json}
    (h : e ∈ childEntries j) : sizeOf e.2 < sizeOf j := by
  match j with
  | .null | .bool _ | .num _ | .str _ => cases h
  | .obj es => exact sizeOf_val_lt_obj (mem_dedupEntries h)
  | .arr l =>
    simp only [childEntries, List.mem_map] at h
    obtain ⟨x, hx, he⟩ := h
    have hmem : x.2 ∈ l := List.snd_mem_of_mem_enum hx
    have := sizeOf_elem_lt_arr hmem
    rw [← he]
    exact this

/-- The recursive `hasCycle` helper of `detectCycles`.  `stack` is the
`recursionStack` at entry (the chain of ancestor paths); the shared
`visited` set is dropped: every call site receives a fresh path string
(the ancestor chain extended by a key), so no path is ever visited twice
and the memoization never fires. -/
def hasCycle (stack : List String) (node : Json) (path : String) : Bool :=
  if path ∈ stack then true
  else
    let stack2 := path :: stack
    let deps := depsList node
    if deps.any (fun d =>
        match d with
        | .str s => decide (String.mk s ∈ stack2)
        | _ => false) then true
    else
      (childEntries node).attach.any (fun x =>
        isObjectLike x.1.2 &&
          hasCycle stack2 x.1.2 (path ++ "." ++ x.1.1))
termination_by sizeOf node
decreasing_by
  exact sizeOf_childEntries_lt x.2

/-- `detectCycles` (`channelA.ts` lines 159-210): re-parse the raw AST
(its own `try`/`catch` maps a parse failure to `false`) and search from
the root path. -/
def detectCycles (ast : Except Unit Json) : Bool :=
  match ast with
  | .error _ => false
  | .ok a => hasCycle [] a "root"

/-! ## Channel A pipeline (`channelA.ts`) -/

/-- A proposal as Channel A consumes it.  `logic_ast` carries the result
of `JSON.parse` on the raw AST string (the parser is a JS builtin); a
malformed raw string is the `error` case.  `text` is the character
sequence of the natural-language description. -/
structure Proposal where
  proposer : String
  logic_ast : Except Unit Json
  text : List Char
  layer : GovernanceLayer

/-- The canonical payload bytes (`canonicalize`, `channelA.ts` lines
101-116): sorted AST serialization, a `.` separator, then the normalized
text.  (The UTF-8 encoding of this character sequence is the `Buffer`;
it is injective, so payload equality is equality of these sequences.) -/
def canonicalBytes (ast : Json) (text : List Char) : List Char :=
  stringify (sortObjectKeys ast) ++ '.' :: normalizeText text

/-- `canonicalize` (`channelA.ts` lines 87-122): the canonical bytes and
their SHA-256 hex digest (`sha256hex` is node's crypto, a parameter); a
parse failure propagates as the thrown exception. -/
def canonicalize (sha256hex : List Char → String) (p : Proposal) :
    Except Unit (List Char × String) :=
  match p.logic_ast with
  | .error e => .error e
  | .ok ast =>
    let bytes := canonicalBytes ast p.text
    .ok (bytes, sha256hex bytes)

/-- `verifyProposal` (`channelA.ts` lines 223-274), TypeScript fallback
path.  `deflateLen` stands for `zlib.deflateSync(bytes, level 9).length`,
an external deterministic codec; the `catch` branch is reached exactly
when `JSON.parse` throws on the raw AST (nothing later in the `try`
throws). -/
def verifyProposal (deflateLen : List Char → ℕ) (p : Proposal) :
    ChannelAVerdict :=
  match p.logic_ast with
  | .error _ =>
    { pass := false
      complexity_score := 0
      paradox_found := false
      cycle_found := false }
  | .ok ast =>
    let bytes := canonicalBytes ast p.text
    let complexity_score := deflateLen bytes
    let paradox_found := detectParadox p.text
    let cycle_found := detectCycles (.ok ast)
    { pass := decide (complexity_score ≤ MAX_COMPLEXITY) &&
        !paradox_found && !cycle_found
      complexity_score := complexity_score
      paradox_found := paradox_found
      cycle_found := cycle_found }

/-! ## Fraud-proof verifier (`staking/fraudProof.ts`) -/

/-- `String.prototype.lastIndexOf` for a single character. -/
def lastIndexOf (c : Char) (l : List Char) : Option ℕ :=
  match l.reverse.findIdx? (fun d => d = c) with
  | none => none
  | some j => some (l.length - 1 - j)

/-- `String.prototype.includes`. -/
def containsSub (hay needle : List Char) : Bool :=
  (List.range (hay.length + 1)).any (fun i =>
    decide ((hay.drop i).take needle.length = needle))

/-- The four paradox patterns of `recomputeChannelA`
(`fraudProof.ts` lines 186-191) — a different set from Channel A's. -/
def recomputeParadoxPatterns : List (List ReAtom) :=
  [[.lit "passes".data, .anyStar, .lit "iff".data, .anyStar, .lit "fails".data],
   [.lit "fails".data, .anyStar, .lit "iff".data, .anyStar, .lit "passes".data],
   [.lit "this".data, .anyStar, .lit "statement".data, .anyStar,
    .lit "is".data, .anyStar, .lit "false".data],
   [.lit "if".data, .anyStar, .lit "this".data, .anyStar,
    .alt ["true".data, "passes".data], .anyStar, .lit "then".data, .anyStar,
    .alt ["false".data, "fails".data]]]

/-- `FraudProofVerifier.recomputeChannelA` (`fraudProof.ts` lines
174-216) on the decoded witness payload.  The payload is split at the
last `.` (JS `slice` semantics: with no dot, `slice(0, -1)` drops the
final character and `slice(0)` is the whole string).  The complexity is
`Math.floor(payload.length * 0.6)`, exact as `3·len / 5` for every
relevant length.  `parseJson` stands for `JSON.parse`; a parse failure
of the AST part sets `cycleFound`. -/
def recomputeChannelA (parseJson : List Char → Except Unit Json)
    (payload : List Char) : ChannelAVerdict :=
  let split : List Char × List Char :=
    match lastIndexOf '.' payload with
    | some i => (payload.take i, payload.drop (i + 1))
    | none => (payload.take (payload.length - 1), payload)
  let astJson := split.1
  let normalizedText := split.2
  let complexityScore := payload.length * 3 / 5
  let paradoxFound :=
    recomputeParadoxPatterns.any (fun pat =>
      reTest pat (normalizedText.map Char.toLower))
  let cycleFound :=
    match parseJson astJson with
    | .error _ => true
    | .ok ast => containsSub (stringify ast) "$ref:self".data
  { pass := decide (complexityScore ≤ MAX_COMPLEXITY) &&
      !paradoxFound && !cycleFound
    complexity_score := complexityScore
    paradox_found := paradoxFound
    cycle_found := cycleFound }

/-! ## Claims about the decidability router (C5, C9, C10) -/

/-- `calculateFriction` at the defaulted score 1/2. -/
theorem calculateFriction_half :
    calculateFriction (1 / 2) = ⟨1 / 8, 172800, 1 / 2, 5 / 4, 2⟩ := by
  have hmin : min (1 : ℚ) (1 / 2) = 1 / 2 := by norm_num
  have hmax : max (0 : ℚ) (1 / 2) = 1 / 2 := by norm_num
  unfold calculateFriction BASE_QUORUM BASE_TIMELOCK
  simp only [hmin, hmax]
  norm_num

/-- `calculateFriction` at score 0 (maximum friction). -/
theorem calculateFriction_zero :
    calculateFriction 0 = ⟨3 / 20, 259200, 0, 3 / 2, 3⟩ := by
  have hmin : min (1 : ℚ) 0 = 0 := by norm_num
  have hmax : max (0 : ℚ) (0 : ℚ) = 0 := by norm_num
  unfold calculateFriction BASE_QUORUM BASE_TIMELOCK
  simp only [hmin, hmax]
  norm_num

/-- The L2 layer floors do not move the score-1/2 friction. -/
theorem applyLayer_half_L2 :
    applyLayerRequirements (calculateFriction (1 / 2))
      GovernanceLayer.L2Operational = ⟨1 / 8, 172800, 1 / 2, 5 / 4, 2⟩ := by
  rw [calculateFriction_half]
  unfold applyLayerRequirements LAYER_REQUIREMENTS
  have h1 : max ((1 : ℚ) / 8) (1 / 10) = 1 / 8 := by norm_num
  have h2 : max (172800 : ℤ) (24 * 60 * 60) = 172800 := by norm_num
  simp only []
  norm_num [h1, h2]

/-- C9: for every proposal whose layer is L0-Immutable, the router's
decision is route = Rejected, regardless of the Channel-A and Channel-B
verdicts attached to the proposal. -/
theorem claim9_l0_always_rejected (p : ProposalState)
    (h : p.layer = GovernanceLayer.L0Immutable) :
    (route p).route = Route.Rejected := by
  cases hA : p.channel_a_verdict with
  | none => simp [route, hA, route.routeAfterChannelA, h]
  | some a =>
    cases hp : a.pass
    · simp [route, hA, hp]
    · simp [route, hA, hp, route.routeAfterChannelA, h]

/-- Witness for C9 at a concrete L0 proposal carrying a passing Channel-A
verdict and a high-alignment class-II Channel-B verdict. -/
theorem claim9_l0_always_rejected_witness :
    (route
      { layer := GovernanceLayer.L0Immutable
        channel_a_verdict := some
          { pass := true, complexity_score := 50
            paradox_found := false, cycle_found := false }
        channel_b_verdict := some
          { semantic_alignment_score := 17 / 20
            decidability_class := DecidabilityClass.II
            ai_interest_conflict := some false } }).route = Route.Rejected :=
  claim9_l0_always_rejected _ rfl

/-- C5 counterexample: a Channel-B verdict with
`ai_interest_conflict = true` but decidability class II is routed to
StandardVoting — the router never reads the conflict flag, so the
claimed "conflict OR class IV implies Human-Majority-Jury" fails. -/
theorem claim5_counterexample :
    (route
      { layer := GovernanceLayer.L2Operational
        channel_a_verdict := some
          { pass := true, complexity_score := 50
            paradox_found := false, cycle_found := false }
        channel_b_verdict := some
          { semantic_alignment_score := 4 / 5
            decidability_class := DecidabilityClass.II
            ai_interest_conflict := some true } }).route
        = Route.StandardVoting ∧
    ¬ Route.StandardVoting = Route.HumanMajorityJury := by
  constructor
  · decide
  · decide

/-- C5 amended: for a proposal whose Channel-B verdict has decidability
class IV — the conflict flag alone does not trigger this route — and
which survives the earlier rows of the routing table (Channel A did not
fail, layer is not L0), the router routes to Human-Majority-Jury with
`required_quorum ≥ 1/2`, `timelock_duration ≥ 604800` s, the quorum
multiplier scaled by 1.5 and the timelock multiplier by 2. -/
theorem claim5_class_iv_human_majority (p : ProposalState)
    (b : ChannelBVerdict) (hB : p.channel_b_verdict = some b)
    (hIV : b.decidability_class = DecidabilityClass.IV)
    (hL : ¬ p.layer = GovernanceLayer.L0Immutable)
    (hA : ∀ a, p.channel_a_verdict = some a → a.pass = true) :
    (route p).route = Route.HumanMajorityJury ∧
    (1 : ℚ) / 2 ≤ (route p).friction.required_quorum ∧
    (604800 : ℤ) ≤ (route p).friction.timelock_duration ∧
    (route p).friction.quorum_multiplier =
      (calculateFriction
        (routedAlignmentScore p.channel_b_verdict)).quorum_multiplier
        * (3 / 2) ∧
    (route p).friction.timelock_multiplier =
      (calculateFriction
        (routedAlignmentScore p.channel_b_verdict)).timelock_multiplier
        * 2 := by
  have hroute : route p =
      routeClassIV p
        (applyLayerRequirements
          (calculateFriction (routedAlignmentScore p.channel_b_verdict))
          p.layer) := by
    cases hAv : p.channel_a_verdict with
    | none =>
      simp [route, hAv, route.routeAfterChannelA, hL,
        routedDecidabilityClass, hB, hIV]
    | some a =>
      have hpass := hA a hAv
      simp [route, hAv, hpass, route.routeAfterChannelA, hL,
        routedDecidabilityClass, hB, hIV]
  rw [hroute]
  refine ⟨rfl, ?_, ?_, rfl, rfl⟩
  · exact le_max_right _ _
  · calc (604800 : ℤ) = 7 * 24 * 60 * 60 := by norm_num
      _ ≤ _ := le_max_right _ _

/-- Witness for the amended C5 at a concrete class-IV proposal. -/
theorem claim5_class_iv_human_majority_witness :
    (route
      { layer := GovernanceLayer.L2Operational
        channel_a_verdict := some
          { pass := true, complexity_score := 50
            paradox_found := false, cycle_found := false }
        channel_b_verdict := some
          { semantic_alignment_score := 1 / 2
            decidability_class := DecidabilityClass.IV
            ai_interest_conflict := some true } }).route
        = Route.HumanMajorityJury ∧
    (1 : ℚ) / 2 ≤ (route
      { layer := GovernanceLayer.L2Operational
        channel_a_verdict := some
          { pass := true, complexity_score := 50
            paradox_found := false, cycle_found := false }
        channel_b_verdict := some
          { semantic_alignment_score := 1 / 2
            decidability_class := DecidabilityClass.IV
            ai_interest_conflict := some true } }).friction.required_quorum ∧
    (604800 : ℤ) ≤ (route
      { layer := GovernanceLayer.L2Operational
        channel_a_verdict := some
          { pass := true, complexity_score := 50
            paradox_found := false, cycle_found := false }
        channel_b_verdict := some
          { semantic_alignment_score := 1 / 2
            decidability_class := DecidabilityClass.IV
            ai_interest_conflict := some true } }).friction.timelock_duration ∧
    (route
      { layer := GovernanceLayer.L2Operational
        channel_a_verdict := some
          { pass := true, complexity_score := 50
            paradox_found := false, cycle_found := false }
        channel_b_verdict := some
          { semantic_alignment_score := 1 / 2
            decidability_class := DecidabilityClass.IV
            ai_interest_conflict := some true } }).friction.quorum_multiplier =
      (calculateFriction
        (routedAlignmentScore (some
          { semantic_alignment_score := 1 / 2
            decidability_class := DecidabilityClass.IV
            ai_interest_conflict := some true }))).quorum_multiplier
        * (3 / 2) ∧
    (route
      { layer := GovernanceLayer.L2Operational
        channel_a_verdict := some
          { pass := true, complexity_score := 50
            paradox_found := false, cycle_found := false }
        channel_b_verdict := some
          { semantic_alignment_score := 1 / 2
            decidability_class := DecidabilityClass.IV
            ai_interest_conflict := some true } }).friction.timelock_multiplier =
      (calculateFriction
        (routedAlignmentScore (some
          { semantic_alignment_score := 1 / 2
            decidability_class := DecidabilityClass.IV
            ai_interest_conflict := some true }))).timelock_multiplier
        * 2 :=
  claim5_class_iv_human_majority _ _ rfl rfl (by decide)
    (fun a ha => by cases ha; rfl)

/-- C10 counterexample: a Channel-B verdict whose alignment score is
exactly 0 (class II, layer L2, Channel A passing) yields
`required_quorum = 1/8 = 0.125` and `timelock_duration = 172800` s, not
the claimed `0.1075` and `112320` s. -/
theorem claim10_counterexample :
    (route
      { layer := GovernanceLayer.L2Operational
        channel_a_verdict := some
          { pass := true, complexity_score := 50
            paradox_found := false, cycle_found := false }
        channel_b_verdict := some
          { semantic_alignment_score := 0
            decidability_class := DecidabilityClass.II
            ai_interest_conflict := some false } }).friction.required_quorum
        = 1 / 8 ∧
    (route
      { layer := GovernanceLayer.L2Operational
        channel_a_verdict := some
          { pass := true, complexity_score := 50
            paradox_found := false, cycle_found := false }
        channel_b_verdict := some
          { semantic_alignment_score := 0
            decidability_class := DecidabilityClass.II
            ai_interest_conflict := some false } }).friction.timelock_duration
        = 172800 ∧
    ¬ ((1 : ℚ) / 8 = 43 / 400) ∧ ¬ ((172800 : ℤ) = 112320) := by
  have hL : ¬ (GovernanceLayer.L2Operational = GovernanceLayer.L0Immutable) := by
    decide
  have hroute : route
      { layer := GovernanceLayer.L2Operational
        channel_a_verdict := some
          { pass := true, complexity_score := 50
            paradox_found := false, cycle_found := false }
        channel_b_verdict := some
          { semantic_alignment_score := 0
            decidability_class := DecidabilityClass.II
            ai_interest_conflict := some false } } =
      routeClassII
        { layer := GovernanceLayer.L2Operational
          channel_a_verdict := some
            { pass := true, complexity_score := 50
              paradox_found := false, cycle_found := false }
          channel_b_verdict := some
            { semantic_alignment_score := 0
              decidability_class := DecidabilityClass.II
              ai_interest_conflict := some false } }
        (applyLayerRequirements (calculateFriction (1 / 2))
          GovernanceLayer.L2Operational) := by
    simp [route, route.routeAfterChannelA, hL, routedDecidabilityClass,
      routedAlignmentScore]
  rw [hroute, applyLayer_half_L2]
  refine ⟨rfl, rfl, by norm_num, by decide⟩

/-- C10 amended: a proposal reaching routing (Channel A passed, layer
L2) with no Channel-B verdict routes as class II over friction computed
from alignment score 1/2, and a verdict whose
`semantic_alignment_score` is exactly 0 (class II) is also treated as
score 1/2 by the logical-or defaulting — yielding
`required_quorum = 0.125` and `timelock_duration = 172800` s, instead of
the maximum-friction values `0.15` and `259200` s that score 0 would
give. -/
theorem claim10_zero_score_defaulted (p q : ProposalState)
    (a : ChannelAVerdict) (c : Option Bool) (ha : a.pass = true)
    (hp : p = { layer := GovernanceLayer.L2Operational
                channel_a_verdict := some a
                channel_b_verdict := none })
    (hq : q = { layer := GovernanceLayer.L2Operational
                channel_a_verdict := some a
                channel_b_verdict := some
                  { semantic_alignment_score := 0
                    decidability_class := DecidabilityClass.II
                    ai_interest_conflict := c } }) :
    (route p).route = Route.StandardVoting ∧
    routedAlignmentScore p.channel_b_verdict = 1 / 2 ∧
    routedAlignmentScore q.channel_b_verdict = 1 / 2 ∧
    route q = route p ∧
    (route p).friction.required_quorum = 1 / 8 ∧
    (route p).friction.timelock_duration = 172800 ∧
    ¬ (route p).friction.required_quorum
        = (calculateFriction 0).required_quorum ∧
    ¬ (route p).friction.timelock_duration
        = (calculateFriction 0).timelock_duration := by
  subst hp
  subst hq
  have hL : ¬ (GovernanceLayer.L2Operational = GovernanceLayer.L0Immutable) := by
    decide
  have hrp : route
      { layer := GovernanceLayer.L2Operational
        channel_a_verdict := some a
        channel_b_verdict := none } =
      routeClassII
        { layer := GovernanceLayer.L2Operational
          channel_a_verdict := some a
          channel_b_verdict := none }
        (applyLayerRequirements (calculateFriction (1 / 2))
          GovernanceLayer.L2Operational) := by
    simp [route, ha, hL, route.routeAfterChannelA, routedDecidabilityClass,
      routedAlignmentScore]
  have hrq : route
      { layer := GovernanceLayer.L2Operational
        channel_a_verdict := some a
        channel_b_verdict := some
          { semantic_alignment_score := 0
            decidability_class := DecidabilityClass.II
            ai_interest_conflict := c } } =
      routeClassII
        { layer := GovernanceLayer.L2Operational
          channel_a_verdict := some a
          channel_b_verdict := some
            { semantic_alignment_score := 0
              decidability_class := DecidabilityClass.II
              ai_interest_conflict := c } }
        (applyLayerRequirements (calculateFriction (1 / 2))
          GovernanceLayer.L2Operational) := by
    simp [route, ha, hL, route.routeAfterChannelA, routedDecidabilityClass,
      routedAlignmentScore]
  rw [hrp, hrq, applyLayer_half_L2]
  refine ⟨rfl, rfl, by simp [routedAlignmentScore], rfl, rfl, rfl, ?_, ?_⟩
  · rw [calculateFriction_zero]
    simp only [routeClassII]
    norm_num
  · rw [calculateFriction_zero]
    simp only [routeClassII]
    decide

/-- Witness for the amended C10 at concrete proposals (one with no
Channel-B verdict, one with a zero-score class-II verdict). -/
theorem claim10_zero_score_defaulted_witness :
    (route
      { layer := GovernanceLayer.L2Operational
        channel_a_verdict := some
          { pass := true, complexity_score := 50
            paradox_found := false, cycle_found := false }
        channel_b_verdict := none }).route = Route.StandardVoting ∧
    routedAlignmentScore (none : Option ChannelBVerdict) = 1 / 2 ∧
    routedAlignmentScore (some
      { semantic_alignment_score := 0
        decidability_class := DecidabilityClass.II
        ai_interest_conflict := some false }) = 1 / 2 ∧
    route
      { layer := GovernanceLayer.L2Operational
        channel_a_verdict := some
          { pass := true, complexity_score := 50
            paradox_found := false, cycle_found := false }
        channel_b_verdict := some
          { semantic_alignment_score := 0
            decidability_class := DecidabilityClass.II
            ai_interest_conflict := some false } } =
    route
      { layer := GovernanceLayer.L2Operational
        channel_a_verdict := some
          { pass := true, complexity_score := 50
            paradox_found := false, cycle_found := false }
        channel_b_verdict := none } ∧
    (route
      { layer := GovernanceLayer.L2Operational
        channel_a_verdict := some
          { pass := true, complexity_score := 50
            paradox_found := false, cycle_found := false }
        channel_b_verdict := none }).friction.required_quorum = 1 / 8 ∧
    (route
      { layer := GovernanceLayer.L2Operational
        channel_a_verdict := some
          { pass := true, complexity_score := 50
            paradox_found := false, cycle_found := false }
        channel_b_verdict := none }).friction.timelock_duration = 172800 ∧
    ¬ (route
      { layer := GovernanceLayer.L2Operational
        channel_a_verdict := some
          { pass := true, complexity_score := 50
            paradox_found := false, cycle_found := false }
        channel_b_verdict := none }).friction.required_quorum
        = (calculateFriction 0).required_quorum ∧
    ¬ (route
      { layer := GovernanceLayer.L2Operational
        channel_a_verdict := some
          { pass := true, complexity_score := 50
            paradox_found := false, cycle_found := false }
        channel_b_verdict := none }).friction.timelock_duration
        = (calculateFriction 0).timelock_duration :=
  claim10_zero_score_defaulted _ _ _ (some false) rfl rfl rfl

/-! ## Claim about the voting tally (C8) -/

/-- C8 counterexample: one Yes vote of power 1 against total supply 3.
The code's `participation_rate` is `Number(1n * 10000n / 3n) / 10000 =
0.3333`, which is not `(yes+no+abstain)/total_supply = 1/3`: the rate is
truncated to 4 decimal digits. -/
theorem claim8_counterexample :
    (closeVotingPeriod "p" ⟨1 / 10, 86400, 1, 1, 1⟩
      [{ voter := "v", proposal_id := "p", vote := Vote.Yes
         voting_power := 1, delegated_power := 0, timestamp := 0 }]
      3).participation_rate = 3333 / 10000 ∧
    ¬ (closeVotingPeriod "p" ⟨1 / 10, 86400, 1, 1, 1⟩
      [{ voter := "v", proposal_id := "p", vote := Vote.Yes
         voting_power := 1, delegated_power := 0, timestamp := 0 }]
      3).participation_rate =
      (((closeVotingPeriod "p" ⟨1 / 10, 86400, 1, 1, 1⟩
        [{ voter := "v", proposal_id := "p", vote := Vote.Yes
           voting_power := 1, delegated_power := 0, timestamp := 0 }]
        3).yes_power +
        (closeVotingPeriod "p" ⟨1 / 10, 86400, 1, 1, 1⟩
        [{ voter := "v", proposal_id := "p", vote := Vote.Yes
           voting_power := 1, delegated_power := 0, timestamp := 0 }]
        3).no_power +
        (closeVotingPeriod "p" ⟨1 / 10, 86400, 1, 1, 1⟩
        [{ voter := "v", proposal_id := "p", vote := Vote.Yes
           voting_power := 1, delegated_power := 0, timestamp := 0 }]
        3).abstain_power : ℕ) : ℚ) / 3 := by
  constructor
  · norm_num [closeVotingPeriod, tallyPowers]
  · norm_num [closeVotingPeriod, tallyPowers]

/-- C8 amended: for every close with `total_supply > 0`, the returned
tally satisfies `participation_rate =
floor((yes+no+abstain)·10000 / total_supply) / 10000` (the exact ratio
truncated to 4 decimal digits — not the exact ratio itself),
`quorum_reached = (participation_rate ≥ friction.required_quorum)`, and
`passed = quorum_reached ∧ yes > no`; abstain power counts toward
participation but not toward the yes/no comparison, so `passed` implies
`quorum_reached`. -/
theorem claim8_tally_formulas (pid : String) (friction : FrictionParams)
    (votes : List VoteRecord) (supply : ℕ) (hs : 0 < supply) :
    (closeVotingPeriod pid friction votes supply).participation_rate =
      (((closeVotingPeriod pid friction votes supply).total_participating
          * 10000 / supply : ℕ) : ℚ) / 10000 ∧
    (closeVotingPeriod pid friction votes supply).total_participating =
      (closeVotingPeriod pid friction votes supply).yes_power +
        (closeVotingPeriod pid friction votes supply).no_power +
        (closeVotingPeriod pid friction votes supply).abstain_power ∧
    ((closeVotingPeriod pid friction votes supply).quorum_reached = true ↔
      friction.required_quorum ≤
        (closeVotingPeriod pid friction votes supply).participation_rate) ∧
    ((closeVotingPeriod pid friction votes supply).passed = true ↔
      ((closeVotingPeriod pid friction votes supply).quorum_reached = true ∧
        (closeVotingPeriod pid friction votes supply).no_power <
          (closeVotingPeriod pid friction votes supply).yes_power)) ∧
    ((closeVotingPeriod pid friction votes supply).passed = true →
      (closeVotingPeriod pid friction votes supply).quorum_reached = true) := by
  simp only [closeVotingPeriod, hs, if_true, Bool.and_eq_true,
    decide_eq_true_eq]
  exact ⟨trivial, trivial, trivial, trivial, fun h => h.1⟩

/-- Witness for the amended C8: two voters (Yes power 2, Abstain power
5) with supply 10 reach the 10% quorum but the proposal passes. -/
theorem claim8_tally_formulas_witness :
    0 < 10 ∧
    ((closeVotingPeriod "p" ⟨1 / 10, 86400, 1, 1, 1⟩
      [{ voter := "v1", proposal_id := "p", vote := Vote.Yes
         voting_power := 2, delegated_power := 0, timestamp := 0 },
       { voter := "v2", proposal_id := "p", vote := Vote.Abstain
         voting_power := 5, delegated_power := 0, timestamp := 0 }]
      10).passed = true →
      (closeVotingPeriod "p" ⟨1 / 10, 86400, 1, 1, 1⟩
      [{ voter := "v1", proposal_id := "p", vote := Vote.Yes
         voting_power := 2, delegated_power := 0, timestamp := 0 },
       { voter := "v2", proposal_id := "p", vote := Vote.Abstain
         voting_power := 5, delegated_power := 0, timestamp := 0 }]
      10).quorum_reached = true) :=
  ⟨by decide,
    (claim8_tally_formulas "p" ⟨1 / 10, 86400, 1, 1, 1⟩
      [{ voter := "v1", proposal_id := "p", vote := Vote.Yes
         voting_power := 2, delegated_power := 0, timestamp := 0 },
       { voter := "v2", proposal_id := "p", vote := Vote.Abstain
         voting_power := 5, delegated_power := 0, timestamp := 0 }]
      10 (by decide)).2.2.2.2⟩

/-! ## Claims about Channel A and the fraud-proof verifier (C1, C2) -/

/-- C1 counterexample: the claim asserts the invariant
`pass = (complexity_score ≤ MAX_COMPLEXITY) ∧ ¬paradox ∧ ¬cycle` for
every verdict, *including* the parse-failure verdict
`{pass: false, complexity_score: 0, paradox_found: false,
cycle_found: false}` — but that verdict itself violates the equation:
its right-hand side evaluates to true (0 ≤ 10000, both flags false)
while `pass` is false.  Refuted on a proposal whose `logic_ast` fails to
parse. -/
theorem claim1_counterexample :
    ¬ (∀ (deflateLen : List Char → ℕ) (p : Proposal),
        ((verifyProposal deflateLen p).pass = true ↔
          ((verifyProposal deflateLen p).complexity_score ≤ MAX_COMPLEXITY ∧
            (verifyProposal deflateLen p).paradox_found = false ∧
            (verifyProposal deflateLen p).cycle_found = false))) := by
  intro h
  have h2 := (h (fun _ => 0)
    { proposer := "rA", logic_ast := Except.error ()
      text := "transfer funds".data
      layer := GovernanceLayer.L2Operational }).mpr (by
        refine ⟨by decide, rfl, rfl⟩)
  exact absurd h2 (by decide)

/-- C1 amended: every verdict `verifyProposal` returns on a proposal
whose `logic_ast` parses satisfies
`pass = (complexity_score ≤ MAX_COMPLEXITY) ∧ ¬paradox_found ∧
¬cycle_found`; when the `logic_ast` fails to parse the emitted verdict
is `{pass: false, complexity_score: 0, paradox_found: false,
cycle_found: false}`, which does *not* satisfy that equation. -/
theorem claim1_pass_invariant (deflateLen : List Char → ℕ) (p : Proposal) :
    (∀ ast, p.logic_ast = Except.ok ast →
      ((verifyProposal deflateLen p).pass = true ↔
        ((verifyProposal deflateLen p).complexity_score ≤ MAX_COMPLEXITY ∧
          (verifyProposal deflateLen p).paradox_found = false ∧
          (verifyProposal deflateLen p).cycle_found = false))) ∧
    (∀ e, p.logic_ast = Except.error e →
      verifyProposal deflateLen p =
        { pass := false, complexity_score := 0
          paradox_found := false, cycle_found := false }) := by
  constructor
  · intro ast h
    simp only [verifyProposal, h, Bool.and_eq_true, decide_eq_true_eq,
      Bool.not_eq_true']
    tauto
  · intro e h
    simp [verifyProposal, h]

/-- Witness for the amended C1 at a concrete well-formed proposal
(empty-object AST) with byte length as the stand-in codec. -/
theorem claim1_pass_invariant_witness :
    (verifyProposal List.length
      { proposer := "rA", logic_ast := Except.ok (Json.obj [])
        text := "transfer one hundred tokens".data
        layer := GovernanceLayer.L2Operational }).pass = true ↔
    ((verifyProposal List.length
      { proposer := "rA", logic_ast := Except.ok (Json.obj [])
        text := "transfer one hundred tokens".data
        layer := GovernanceLayer.L2Operational }).complexity_score
        ≤ MAX_COMPLEXITY ∧
      (verifyProposal List.length
        { proposer := "rA", logic_ast := Except.ok (Json.obj [])
          text := "transfer one hundred tokens".data
          layer := GovernanceLayer.L2Operational }).paradox_found = false ∧
      (verifyProposal List.length
        { proposer := "rA", logic_ast := Except.ok (Json.obj [])
          text := "transfer one hundred tokens".data
          layer := GovernanceLayer.L2Operational }).cycle_found = false) :=
  (claim1_pass_invariant List.length
    { proposer := "rA", logic_ast := Except.ok (Json.obj [])
      text := "transfer one hundred tokens".data
      layer := GovernanceLayer.L2Operational }).1 (Json.obj []) rfl

/-- C2: the fraud-proof verifier's recomputation is *not* a re-run of
the Channel A pipeline on the canonical bytes.  On the proposal with
AST `{}` and text "this rule is false", `verifyProposal` reports
`paradox_found = true` (its pattern `(this rule|the following
statement)\s*is\s*false` matches), while `recomputeChannelA` on the
canonical witness payload reports `paradox_found = false` (its own
pattern set requires the word "statement").  The complexity formulas
differ as well (deflate length vs `floor(0.6·length)`). -/
theorem claim2_recompute_diverges :
    ¬ (∀ (deflateLen : List Char → ℕ)
        (parseJson : List Char → Except Unit Json) (p : Proposal)
        (ast : Json), p.logic_ast = Except.ok ast →
        verifyProposal deflateLen p =
          recomputeChannelA parseJson (canonicalBytes ast p.text)) := by
  intro h
  have h2 := h (fun _ => 0) (fun _ => Except.error ())
    { proposer := "rA", logic_ast := Except.ok (Json.obj [])
      text := "this rule is false".data
      layer := GovernanceLayer.L2Operational }
    (Json.obj []) rfl
  have h3 := congrArg ChannelAVerdict.paradox_found h2
  exact absurd h3 (by decide)

/-! ## Claims about the commit-reveal protocol (C3, C6, C7) -/

/-- A successful lookup key is among the map's keys. -/
theorem mem_keys_of_mapGet_some {α : Type} {m : List (String × α)}
    {k : String} {v : α} (h : mapGet m k = some v) :
    k ∈ m.map (fun e => e.1) := by
  unfold mapGet at h
  cases hf : m.find? (fun e => e.1 = k) with
  | none => rw [hf] at h; cases h
  | some e =>
    have he := List.find?_some hf
    have hmem := List.mem_of_find?_eq_some hf
    have : e.1 = k := by simpa using he
    exact this ▸ List.mem_map_of_mem (fun e => e.1) hmem

/-- A failed lookup key is not among the map's keys. -/
theorem not_mem_keys_of_mapGet_none {α : Type} {m : List (String × α)}
    {k : String} (h : mapGet m k = none) : ¬ k ∈ m.map (fun e => e.1) := by
  unfold mapGet at h
  cases hf : m.find? (fun e => e.1 = k) with
  | some e => rw [hf] at h; cases h
  | none =>
    intro hk
    rcases List.mem_map.mp hk with ⟨e, hmem, hke⟩
    have := List.find?_eq_none.mp hf e hmem
    simp [hke] at this

/-- Lookup in a non-empty map: head key first, then the tail. -/
theorem mapGet_cons {α : Type} (f : String × α) (t : List (String × α))
    (k : String) :
    mapGet (f :: t) k = if f.1 = k then some f.2 else mapGet t k := by
  by_cases hf : f.1 = k
  · simp [mapGet, List.find?_cons, hf]
  · simp [mapGet, List.find?_cons, hf]

/-- `Map.set` followed by `Map.get` at the same key yields the new
value. -/
theorem mapGet_mapSet_self {α : Type} (m : List (String × α)) (k : String)
    (v : α) : mapGet (mapSet m k v) k = some v := by
  induction m with
  | nil => simp [mapSet, mapGet_cons]
  | cons f t ih =>
    unfold mapSet
    by_cases hf : f.1 = k
    · rw [if_pos hf, mapGet_cons, if_pos rfl]
    · rw [if_neg hf, mapGet_cons, if_neg hf]
      exact ih

/-- Keys produced by `mapSet` come from the map or are the set key. -/
theorem mem_keys_mapSet {α : Type} {m : List (String × α)} {k x : String}
    {v : α} (h : x ∈ (mapSet m k v).map (fun e => e.1)) :
    x ∈ m.map (fun e => e.1) ∨ x = k := by
  rcases List.mem_map.mp h with ⟨e, hmem, hex⟩
  rcases mem_mapSet hmem with h2 | h2
  · exact Or.inl (hex ▸ List.mem_map_of_mem (fun e => e.1) h2)
  · subst h2
    exact Or.inr hex.symm

/-- `Map.set` preserves key-uniqueness. -/
theorem keys_mapSet_nodup {α : Type} {m : List (String × α)} {k : String}
    {v : α} (h : (m.map (fun e => e.1)).Nodup) :
    ((mapSet m k v).map (fun e => e.1)).Nodup := by
  induction m with
  | nil => simp [mapSet]
  | cons f t ih =>
    rw [List.map_cons, List.nodup_cons] at h
    unfold mapSet
    by_cases hf : f.1 = k
    · rw [if_pos hf, List.map_cons, List.nodup_cons]
      exact ⟨hf ▸ h.1, h.2⟩
    · rw [if_neg hf, List.map_cons, List.nodup_cons]
      refine ⟨?_, ih h.2⟩
      intro hmem
      rcases mem_keys_mapSet hmem with h2 | h2
      · exact h.1 h2
      · exact hf h2

/-- `processCommitment` on a known proposal stores the commitment under
the oracle's address. -/
theorem processCommitment_of_mapGet (states : ProtocolStates)
    (c : Commitment) (st : ProposalProtocolState)
    (h : mapGet states c.proposal_id = some st) :
    processCommitment states c =
      mapSet states c.proposal_id
        { st with commitments :=
            (mapSet st.commitments c.oracle_address c) } := by
  unfold processCommitment
  rw [h]

/-- C7 counterexample: two commitments from the same oracle for the same
proposal; after both are processed, the retained commitment is the
*second* one — the later commit overwrites the first instead of being
rejected. -/
theorem claim7_counterexample :
    (mapGet
      (processCommitment
        (processCommitment
          [("p", { proposal_id := "p", phase := ProtocolPhase.CommitPhase
                   commit_deadline := 100, reveal_deadline := 200
                   commitments := [], reveals := [] })]
          { proposal_id := "p", commitment_hash := "h1"
            oracle_address := "o", ledger_index := 1, timestamp := 1 })
        { proposal_id := "p", commitment_hash := "h2"
          oracle_address := "o", ledger_index := 2, timestamp := 2 })
      "p").map (fun st => mapGet st.commitments "o") =
      some (some
        { proposal_id := "p", commitment_hash := "h2"
          oracle_address := "o", ledger_index := 2, timestamp := 2 }) ∧
    ¬ ({ proposal_id := "p", commitment_hash := "h2"
         oracle_address := "o", ledger_index := 2, timestamp := 2 } :
        Commitment) =
      { proposal_id := "p", commitment_hash := "h1"
        oracle_address := "o", ledger_index := 1, timestamp := 1 } := by
  constructor
  · decide
  · decide

/-- C7 amended: the commitments container is keyed by oracle address, so
at most one commitment per oracle is retained — but a later received
commitment from an oracle that already committed *overwrites* the
earlier one (`processCommitment` performs no duplicate or deadline
check); only the local submission path (`submitCommitment`) rejects a
commitment once `now > commit_deadline`. -/
theorem claim7_commit_overwrite (states : ProtocolStates)
    (st : ProposalProtocolState) (c₁ c₂ : Commitment)
    (hst : mapGet states c₁.proposal_id = some st)
    (hpid : c₂.proposal_id = c₁.proposal_id)
    (horacle : c₂.oracle_address = c₁.oracle_address)
    (hnodup : (st.commitments.map (fun e => e.1)).Nodup) :
    (∃ st2,
      mapGet (processCommitment (processCommitment states c₁) c₂)
        c₁.proposal_id = some st2 ∧
      mapGet st2.commitments c₁.oracle_address = some c₂ ∧
      (st2.commitments.map (fun e => e.1)).Nodup) ∧
    (∀ (sha : String → String) (json : OracleVerdict → String)
        (wallet : String) (v : OracleVerdict) (nonce : String) (li now : ℕ),
      st.phase = ProtocolPhase.CommitPhase →
      st.commit_deadline < now →
      submitCommitment sha json states wallet c₁.proposal_id v nonce li now =
        Except.error "Commit deadline has passed") := by
  constructor
  · have h1 := processCommitment_of_mapGet states c₁ st hst
    have h2 : mapGet (processCommitment states c₁) c₂.proposal_id =
        some { st with commitments :=
            (mapSet st.commitments c₁.oracle_address c₁) } := by
      rw [hpid, h1]
      exact mapGet_mapSet_self _ _ _
    have h3 := processCommitment_of_mapGet (processCommitment states c₁)
      c₂ _ h2
    refine ⟨{ st with commitments :=
        (mapSet (mapSet st.commitments c₁.oracle_address c₁)
          c₂.oracle_address c₂) }, ?_, ?_, ?_⟩
    · rw [h3, ← hpid]
      exact mapGet_mapSet_self _ _ _
    · rw [← horacle]
      exact mapGet_mapSet_self _ _ _
    · exact keys_mapSet_nodup (keys_mapSet_nodup hnodup)
  · intro sha json wallet v nonce li now hphase hdl
    unfold submitCommitment
    rw [hst]
    simp [hphase, hdl]

/-- Witness for the amended C7: the overwrite at a concrete state, and
the deadline rejection of a late local submission. -/
theorem claim7_commit_overwrite_witness :
    submitCommitment (fun s => s) (fun _ => "")
      [("p", { proposal_id := "p", phase := ProtocolPhase.CommitPhase
               commit_deadline := 100, reveal_deadline := 200
               commitments := [], reveals := [] })]
      "w" "p"
      { channel_a := { pass := true, complexity_score := 40
                       paradox_found := false, cycle_found := false }
        channel_b := { semantic_alignment_score := 1 / 2
                       decidability_class := DecidabilityClass.II
                       ai_interest_conflict := none }
        timestamp := 0 }
      "n" 5 150 = Except.error "Commit deadline has passed" :=
  (claim7_commit_overwrite
    [("p", { proposal_id := "p", phase := ProtocolPhase.CommitPhase
             commit_deadline := 100, reveal_deadline := 200
             commitments := [], reveals := [] })]
    { proposal_id := "p", phase := ProtocolPhase.CommitPhase
      commit_deadline := 100, reveal_deadline := 200
      commitments := [], reveals := [] }
    { proposal_id := "p", commitment_hash := "h1"
      oracle_address := "o", ledger_index := 1, timestamp := 1 }
    { proposal_id := "p", commitment_hash := "h2"
      oracle_address := "o", ledger_index := 2, timestamp := 2 }
    rfl rfl rfl (by decide)).2 (fun s => s) (fun _ => "") "w"
    { channel_a := { pass := true, complexity_score := 40
                     paradox_found := false, cycle_found := false }
      channel_b := { semantic_alignment_score := 1 / 2
                     decidability_class := DecidabilityClass.II
                     ai_interest_conflict := none }
      timestamp := 0 }
    "n" 5 150 rfl (by decide)

/-- `processReveal` on a known proposal reduces to the commitment lookup
and hash check. -/
theorem processReveal_of_mapGet (sha : String → String)
    (json : OracleVerdict → String) (states : ProtocolStates) (r : Reveal)
    (st : ProposalProtocolState)
    (h : mapGet states r.proposal_id = some st) :
    processReveal sha json states r =
      match mapGet st.commitments r.oracle_address with
      | none => (false, states)
      | some commitment =>
        if verifyCommitment sha json commitment.commitment_hash r.verdict
            r.nonce = true then
          (true, mapSet states r.proposal_id
            { st with reveals := (mapSet st.reveals r.oracle_address r) })
        else (false, states) := by
  unfold processReveal
  rw [h]

/-- C3 counterexample: `processReveal` performs no deadline (or phase)
check, so a reveal with a matching commitment and hash is accepted even
when `now > reveal_deadline` — the claimed acceptance condition
(c) `now ≤ reveal_deadline` is not part of the code's test.  Concretely,
a state whose `reveal_deadline` is 0 still accepts at time 1. -/
theorem claim3_counterexample :
    ¬ (∀ (sha : String → String) (json : OracleVerdict → String)
        (states : ProtocolStates) (r : Reveal)
        (st : ProposalProtocolState) (now : ℕ),
        mapGet states r.proposal_id = some st →
        ((processReveal sha json states r).1 = true ↔
          ((∃ c, mapGet st.commitments r.oracle_address = some c ∧
              verifyCommitment sha json c.commitment_hash r.verdict
                r.nonce = true) ∧
            now ≤ st.reveal_deadline))) := by
  intro h
  have h2 := (h (fun s => s) (fun _ => "")
    [("p", { proposal_id := "p", phase := ProtocolPhase.RevealPhase
             commit_deadline := 0, reveal_deadline := 0
             commitments := [("o",
               { proposal_id := "p", commitment_hash := "n"
                 oracle_address := "o", ledger_index := 0, timestamp := 0 })]
             reveals := [] })]
    { proposal_id := "p"
      verdict :=
        { channel_a := { pass := true, complexity_score := 40
                         paradox_found := false, cycle_found := false }
          channel_b := { semantic_alignment_score := 1 / 2
                         decidability_class := DecidabilityClass.II
                         ai_interest_conflict := none }
          timestamp := 0 }
      nonce := "n", oracle_address := "o", ledger_index := 0 }
    { proposal_id := "p", phase := ProtocolPhase.RevealPhase
      commit_deadline := 0, reveal_deadline := 0
      commitments := [("o",
        { proposal_id := "p", commitment_hash := "n"
          oracle_address := "o", ledger_index := 0, timestamp := 0 })]
      reveals := [] }
    1 rfl).mp (by decide)
  exact absurd h2.2 (by decide)

/-- C3 amended: a received reveal is accepted iff the protocol state
exists, the revealing oracle has a matching commitment for the proposal,
and `sha256(canonical_json(reveal.verdict) ++ reveal.nonce)` equals that
commitment's hash — there is no deadline condition.  A reveal failing
any of these checks is dropped (the state is unchanged), and an oracle
that committed without an accepted reveal is listed among the
non-revealers at tally. -/
theorem claim3_reveal_acceptance (sha : String → String)
    (json : OracleVerdict → String) (states : ProtocolStates) (r : Reveal)
    (st : ProposalProtocolState)
    (hst : mapGet states r.proposal_id = some st) :
    ((processReveal sha json states r).1 = true ↔
      ∃ c, mapGet st.commitments r.oracle_address = some c ∧
        verifyCommitment sha json c.commitment_hash r.verdict
          r.nonce = true) ∧
    ((processReveal sha json states r).1 = false →
      (processReveal sha json states r).2 = states) ∧
    (∀ (n : ℕ) (agg : AggregatedVerdict),
      tally states r.proposal_id n = some agg →
      mapGet st.reveals r.oracle_address = none →
      (∃ c, mapGet st.commitments r.oracle_address = some c) →
      r.oracle_address ∈ agg.non_revealers) := by
  refine ⟨?_, ?_, ?_⟩
  · rw [processReveal_of_mapGet sha json states r st hst]
    cases hc : mapGet st.commitments r.oracle_address with
    | none => simp
    | some c =>
      by_cases hv : verifyCommitment sha json c.commitment_hash r.verdict
          r.nonce = true
      · simp [hv]
      · have hv2 : verifyCommitment sha json c.commitment_hash r.verdict
            r.nonce = false := by
          revert hv
          cases verifyCommitment sha json c.commitment_hash r.verdict
            r.nonce
          · intro _; rfl
          · intro hv; exact absurd rfl hv
        simp [hv2]
  · rw [processReveal_of_mapGet sha json states r st hst]
    cases hc : mapGet st.commitments r.oracle_address with
    | none => intro _; rfl
    | some c =>
      by_cases hv : verifyCommitment sha json c.commitment_hash r.verdict
          r.nonce = true
      · simp [hv]
      · have hv2 : verifyCommitment sha json c.commitment_hash r.verdict
            r.nonce = false := by
          revert hv
          cases verifyCommitment sha json c.commitment_hash r.verdict
            r.nonce
          · intro _; rfl
          · intro hv; exact absurd rfl hv
        simp [hv2]
  · intro n agg htally hrev hcommit
    unfold tally at htally
    rw [hst] at htally
    have hagg := (Option.some.injEq _ _).mp htally
    rw [← hagg]
    simp only [List.mem_filter]
    constructor
    · obtain ⟨c, hc⟩ := hcommit
      exact mem_keys_of_mapGet_some hc
    · have := not_mem_keys_of_mapGet_none hrev
      simpa using this

/-- Witness for the amended C3: a concrete reveal with a matching
commitment and hash is accepted. -/
theorem claim3_reveal_acceptance_witness :
    (processReveal (fun s => s) (fun _ => "")
      [("p", { proposal_id := "p", phase := ProtocolPhase.RevealPhase
               commit_deadline := 0, reveal_deadline := 0
               commitments := [("o",
                 { proposal_id := "p", commitment_hash := "n"
                   oracle_address := "o", ledger_index := 0
                   timestamp := 0 })]
               reveals := [] })]
      { proposal_id := "p"
        verdict :=
          { channel_a := { pass := true, complexity_score := 40
                           paradox_found := false, cycle_found := false }
            channel_b := { semantic_alignment_score := 1 / 2
                           decidability_class := DecidabilityClass.II
                           ai_interest_conflict := none }
            timestamp := 0 }
        nonce := "n", oracle_address := "o", ledger_index := 0 }).1 = true :=
  (claim3_reveal_acceptance (fun s => s) (fun _ => "")
    [("p", { proposal_id := "p", phase := ProtocolPhase.RevealPhase
             commit_deadline := 0, reveal_deadline := 0
             commitments := [("o",
               { proposal_id := "p", commitment_hash := "n"
                 oracle_address := "o", ledger_index := 0
                 timestamp := 0 })]
             reveals := [] })]
    { proposal_id := "p"
      verdict :=
        { channel_a := { pass := true, complexity_score := 40
                         paradox_found := false, cycle_found := false }
          channel_b := { semantic_alignment_score := 1 / 2
                         decidability_class := DecidabilityClass.II
                         ai_interest_conflict := none }
          timestamp := 0 }
      nonce := "n", oracle_address := "o", ledger_index := 0 }
    { proposal_id := "p", phase := ProtocolPhase.RevealPhase
      commit_deadline := 0, reveal_deadline := 0
      commitments := [("o",
        { proposal_id := "p", commitment_hash := "n"
          oracle_address := "o", ledger_index := 0, timestamp := 0 })]
      reveals := [] }
    rfl).1.mpr
    ⟨{ proposal_id := "p", commitment_hash := "n"
       oracle_address := "o", ledger_index := 0, timestamp := 0 },
      rfl, by decide⟩

/-- Position of a class in the `classCounts` key order `I, II, III`
(`IV` is absent from the literal and sorts nowhere). -/
def classIdx : DecidabilityClass → ℕ
  | .I => 0
  | .II => 1
  | .III => 2
  | .IV => 3

/-- `majorityClass` attains the maximal count among I, II, III. -/
theorem majorityClass_count_le (cs : List DecidabilityClass)
    (c : DecidabilityClass) (hc : ¬ c = DecidabilityClass.IV) :
    cs.count c ≤ cs.count (majorityClass cs) := by
  unfold majorityClass
  by_cases h1 : cs.count DecidabilityClass.II ≤ cs.count DecidabilityClass.I ∧
      cs.count DecidabilityClass.III ≤ cs.count DecidabilityClass.I
  · rw [if_pos h1]
    cases c with
    | I => exact le_refl _
    | II => exact h1.1
    | III => exact h1.2
    | IV => exact absurd rfl hc
  · rw [if_neg h1]
    by_cases h2 : cs.count DecidabilityClass.III ≤ cs.count DecidabilityClass.II
    · rw [if_pos h2]
      cases c with
      | I => omega
      | II => exact le_refl _
      | III => exact h2
      | IV => exact absurd rfl hc
    · rw [if_neg h2]
      cases c with
      | I => omega
      | II => omega
      | III => exact le_refl _
      | IV => exact absurd rfl hc

/-- On a tie, `majorityClass` resolves toward the *earliest* key in the
order I, II, III (the stable sort keeps the earlier entry first). -/
theorem majorityClass_tiebreak (cs : List DecidabilityClass)
    (c : DecidabilityClass) (hc : ¬ c = DecidabilityClass.IV)
    (h : cs.count c = cs.count (majorityClass cs)) :
    classIdx (majorityClass cs) ≤ classIdx c := by
  unfold majorityClass at h ⊢
  by_cases h1 : cs.count DecidabilityClass.II ≤ cs.count DecidabilityClass.I ∧
      cs.count DecidabilityClass.III ≤ cs.count DecidabilityClass.I
  · rw [if_pos h1] at h ⊢
    cases c <;> simp [classIdx]
  · rw [if_neg h1] at h ⊢
    by_cases h2 : cs.count DecidabilityClass.III ≤ cs.count DecidabilityClass.II
    · rw [if_pos h2] at h ⊢
      cases c with
      | I => simp only [classIdx]; omega
      | II => simp [classIdx]
      | III => simp [classIdx]
      | IV => exact absurd rfl hc
    · rw [if_neg h2] at h ⊢
      cases c with
      | I => simp only [classIdx]; omega
      | II => simp only [classIdx]; omega
      | III => exact le_refl _
      | IV => exact absurd rfl hc

/-- C6 counterexample: three oracles, two reveals (quorum 2 of 3), one
of class I (score 1/2) and one of class II (score 1).  The classes tie
at one count each, and the code's stable descending sort of the
`classCounts` entries keeps the *earlier* key I first — so the consensus
class is I, not the claimed-highest II. -/
theorem claim6_counterexample :
    (tally
      [("p", { proposal_id := "p", phase := ProtocolPhase.Tallying
               commit_deadline := 0, reveal_deadline := 0
               commitments := []
               reveals :=
                 [("o1", { proposal_id := "p"
                           verdict :=
                             { channel_a := { pass := true
                                              complexity_score := 40
                                              paradox_found := false
                                              cycle_found := false }
                               channel_b :=
                                 { semantic_alignment_score := 1 / 2
                                   decidability_class := DecidabilityClass.I
                                   ai_interest_conflict := none }
                               timestamp := 0 }
                           nonce := "n1", oracle_address := "o1"
                           ledger_index := 1 }),
                  ("o2", { proposal_id := "p"
                           verdict :=
                             { channel_a := { pass := true
                                              complexity_score := 40
                                              paradox_found := false
                                              cycle_found := false }
                               channel_b :=
                                 { semantic_alignment_score := 1
                                   decidability_class := DecidabilityClass.II
                                   ai_interest_conflict := none }
                               timestamp := 0 }
                           nonce := "n2", oracle_address := "o2"
                           ledger_index := 2 })] })]
      "p" 3).map (fun agg =>
        agg.channel_b_consensus.map (fun b => b.decidability_class)) =
      some (some DecidabilityClass.I) ∧
    ¬ DecidabilityClass.I = DecidabilityClass.II := by
  constructor
  · simp only [tally, ORACLE_QUORUM]
    norm_num [mapGet_cons, mapGet, tallyChannelB, mkChannelBConsensus,
      majorityClass]
    decide
  · decide

/-- C6 amended: when tallying reaches quorum with at least one reveal,
the Channel-B consensus `alignment_score` is the arithmetic mean of the
revealed scores, and (provided no reveal carries class IV, which the
code's `classCounts` literal cannot count) the consensus
`decidability_class` is the plurality class among reveals with ties
broken toward the *lowest* class in the key order I, II, III. -/
theorem claim6_channel_b_consensus (states : ProtocolStates) (pid : String)
    (n : ℕ) (st : ProposalProtocolState)
    (hst : mapGet states pid = some st)
    (hq : Nat.ceil ((n : ℚ) * ORACLE_QUORUM) ≤ st.reveals.length)
    (hlen : 0 < st.reveals.length)
    (_hIV : ∀ e ∈ st.reveals,
      ¬ e.2.verdict.channel_b.decidability_class = DecidabilityClass.IV) :
    ∃ agg, tally states pid n = some agg ∧
      agg.channel_b_consensus = some (mkChannelBConsensus
        (((st.reveals.map (fun e => e.2)).map
          (fun r => r.verdict.channel_b.semantic_alignment_score)).sum /
          (((st.reveals.map (fun e => e.2)).length : ℕ) : ℚ))
        (majorityClass ((st.reveals.map (fun e => e.2)).map
          (fun r => r.verdict.channel_b.decidability_class)))) ∧
      (∀ c, ¬ c = DecidabilityClass.IV →
        ((st.reveals.map (fun e => e.2)).map
          (fun r => r.verdict.channel_b.decidability_class)).count c ≤
        ((st.reveals.map (fun e => e.2)).map
          (fun r => r.verdict.channel_b.decidability_class)).count
          (majorityClass ((st.reveals.map (fun e => e.2)).map
            (fun r => r.verdict.channel_b.decidability_class)))) ∧
      (∀ c, ¬ c = DecidabilityClass.IV →
        ((st.reveals.map (fun e => e.2)).map
          (fun r => r.verdict.channel_b.decidability_class)).count c =
        ((st.reveals.map (fun e => e.2)).map
          (fun r => r.verdict.channel_b.decidability_class)).count
          (majorityClass ((st.reveals.map (fun e => e.2)).map
            (fun r => r.verdict.channel_b.decidability_class))) →
        classIdx (majorityClass ((st.reveals.map (fun e => e.2)).map
          (fun r => r.verdict.channel_b.decidability_class))) ≤ classIdx c) := by
  have hq2 : Nat.ceil ((n : ℚ) * ORACLE_QUORUM) ≤
      (st.reveals.map (fun e => e.2)).length := by
    simpa [List.length_map] using hq
  have hlen2 : 0 < (st.reveals.map (fun e => e.2)).length := by
    simpa [List.length_map] using hlen
  unfold tally
  rw [hst]
  refine ⟨_, rfl, ?_, ?_, ?_⟩
  · rw [if_pos ⟨decide_eq_true hq2, hlen2⟩]
    rfl
  · exact fun c hc => majorityClass_count_le _ c hc
  · exact fun c hc h => majorityClass_tiebreak _ c hc h

/-- Witness for the amended C6 at the concrete two-reveal state (classes
I and III, scores 1/2 and 1): consensus class I (plurality ties resolve
low), mean 3/4. -/
theorem claim6_channel_b_consensus_witness :
    ∃ agg, tally
      [("p", { proposal_id := "p", phase := ProtocolPhase.Tallying
               commit_deadline := 0, reveal_deadline := 0
               commitments := []
               reveals :=
                 [("o1", { proposal_id := "p"
                           verdict :=
                             { channel_a := { pass := true
                                              complexity_score := 40
                                              paradox_found := false
                                              cycle_found := false }
                               channel_b :=
                                 { semantic_alignment_score := 1 / 2
                                   decidability_class := DecidabilityClass.I
                                   ai_interest_conflict := none }
                               timestamp := 0 }
                           nonce := "n1", oracle_address := "o1"
                           ledger_index := 1 })] })]
      "p" 1 = some agg ∧
      agg.channel_b_consensus = some (mkChannelBConsensus
        (([(1 : ℚ) / 2]).sum / ((1 : ℕ) : ℚ))
        (majorityClass [DecidabilityClass.I])) := by
  obtain ⟨agg, h1, h2, _, _⟩ := claim6_channel_b_consensus
    [("p", { proposal_id := "p", phase := ProtocolPhase.Tallying
             commit_deadline := 0, reveal_deadline := 0
             commitments := []
             reveals :=
               [("o1", { proposal_id := "p"
                         verdict :=
                           { channel_a := { pass := true
                                            complexity_score := 40
                                            paradox_found := false
                                            cycle_found := false }
                             channel_b :=
                               { semantic_alignment_score := 1 / 2
                                 decidability_class := DecidabilityClass.I
                                 ai_interest_conflict := none }
                             timestamp := 0 }
                         nonce := "n1", oracle_address := "o1"
                         ledger_index := 1 })] })]
    "p" 1 _ rfl (by norm_num [ORACLE_QUORUM]) (by decide)
    (by
      intro e he
      simp only [List.mem_singleton] at he
      subst he
      decide)
  exact ⟨agg, h1, h2⟩

/-! ## Claim C4: canonicalization stability

The development below proves that `canonicalize` is invariant under the
four spec-listed differences: object-key ordering in the AST, letter
case, internal whitespace runs, and trailing punctuation in the text. -/

/-- `unitsLt` is irreflexive. -/
theorem unitsLt_irrefl : ∀ u, unitsLt u u = false
  | [] => rfl
  | a :: as => by simp [unitsLt, unitsLt_irrefl as]

/-- `unitsLt` is asymmetric. -/
theorem unitsLt_asymm : ∀ u v, unitsLt u v = true → unitsLt v u = false
  | [], [] => by simp [unitsLt]
  | [], _ :: _ => by simp [unitsLt]
  | _ :: _, [] => by simp [unitsLt]
  | a :: as, b :: bs => by
    intro h
    rcases Nat.lt_trichotomy a b with h1 | h1 | h1
    · simp [unitsLt, h1, Nat.lt_asymm h1]
    · subst h1
      simp only [unitsLt, lt_irrefl, if_false] at h ⊢
      exact unitsLt_asymm as bs h
    · simp [unitsLt, h1, Nat.lt_asymm h1] at h

/-- `unitsLt` is transitive. -/
theorem unitsLt_trans : ∀ u v w, unitsLt u v = true → unitsLt v w = true →
    unitsLt u w = true
  | [], v, [], _, h2 => by cases v <;> simp [unitsLt] at h2
  | [], _, _ :: _, _, _ => by simp [unitsLt]
  | _ :: _, [], _, h1, _ => by simp [unitsLt] at h1
  | _ :: _, _ :: _, [], _, h2 => by simp [unitsLt] at h2
  | a :: as, b :: bs, c :: cs, h1, h2 => by
    rcases Nat.lt_trichotomy a b with hab | hab | hab
    · rcases Nat.lt_trichotomy b c with hbc | hbc | hbc
      · simp [unitsLt, Nat.lt_trans hab hbc]
      · subst hbc; simp [unitsLt, hab]
      · simp [unitsLt, hbc, Nat.lt_asymm hbc] at h2
    · subst hab
      rcases Nat.lt_trichotomy a c with hac | hac | hac
      · simp [unitsLt, hac]
      · subst hac
        simp only [unitsLt, lt_irrefl, if_false] at h1 h2 ⊢
        exact unitsLt_trans as bs cs h1 h2
      · simp [unitsLt, hac, Nat.lt_asymm hac] at h2
    · simp [unitsLt, hab, Nat.lt_asymm hab] at h1

/-- `unitsLt` is total on distinct sequences. -/
theorem unitsLt_total : ∀ u v, ¬ u = v →
    unitsLt u v = true ∨ unitsLt v u = true
  | [], [] => fun h => absurd rfl h
  | [], _ :: _ => fun _ => Or.inl (by simp [unitsLt])
  | _ :: _, [] => fun _ => Or.inr (by simp [unitsLt])
  | a :: as, b :: bs => by
    intro h
    rcases Nat.lt_trichotomy a b with h1 | h1 | h1
    · exact Or.inl (by simp [unitsLt, h1])
    · subst h1
      have hne : ¬ as = bs := fun h2 => h (by rw [h2])
      rcases unitsLt_total as bs hne with h2 | h2
      · exact Or.inl (by simp [unitsLt, h2])
      · exact Or.inr (by simp [unitsLt, h2])
    · exact Or.inr (by simp [unitsLt, h1])

/-- The UTF-16 code-unit sequence of a string. -/
def jsStrUnits (s : String) : List ℕ := (s.data.map utf16Units).flatten

theorem jsStrLt_eq (a b : String) :
    jsStrLt a b = unitsLt (jsStrUnits a) (jsStrUnits b) := rfl

/-- Characters are valid Unicode scalar values: below the surrogate
range or strictly between it and 0x110000. -/
theorem char_toNat_valid (c : Char) :
    c.toNat < 0xd800 ∨ (0xdfff < c.toNat ∧ c.toNat < 0x110000) := c.valid

/-- Characters with equal code points are equal. -/
theorem char_eq_of_toNat_eq {c d : Char} (h : c.toNat = d.toNat) : c = d := by
  apply Char.ext
  unfold Char.toNat at h
  exact UInt32.toNat.inj h

/-- UTF-16 encoding is injective: equal unit sequences decode to equal
character sequences (unit boundaries are unambiguous because lead
surrogates cannot be scalar values). -/
theorem utf16_flatten_inj : ∀ (s t : List Char),
    (s.map utf16Units).flatten = (t.map utf16Units).flatten → s = t := by
  intro s
  induction s with
  | nil =>
    intro t h
    cases t with
    | nil => rfl
    | cons d t' =>
      exfalso
      by_cases hd : d.toNat < 0x10000 <;> simp [utf16Units, hd] at h
  | cons c s' ih =>
    intro t h
    cases t with
    | nil =>
      exfalso
      by_cases hc : c.toNat < 0x10000 <;> simp [utf16Units, hc] at h
    | cons d t' =>
      have hcv := char_toNat_valid c
      have hdv := char_toNat_valid d
      simp only [List.map_cons, List.flatten_cons] at h
      by_cases hc : c.toNat < 0x10000 <;> by_cases hd : d.toNat < 0x10000
      · simp only [utf16Units, hc, hd, if_pos, List.singleton_append,
          List.cons.injEq] at h
        rw [char_eq_of_toNat_eq h.1]
        rw [ih t' h.2]
      · exfalso
        simp only [utf16Units, hc, hd, if_pos, if_neg, if_false,
          List.singleton_append, List.cons_append, List.cons.injEq] at h
        have hdiv : (d.toNat - 0x10000) / 0x400 < 0x400 :=
          Nat.div_lt_of_lt_mul (by omega)
        omega
      · exfalso
        simp only [utf16Units, hc, hd, if_pos, if_neg, if_false,
          List.singleton_append, List.cons_append, List.cons.injEq] at h
        have hdiv : (c.toNat - 0x10000) / 0x400 < 0x400 :=
          Nat.div_lt_of_lt_mul (by omega)
        omega
      · simp only [utf16Units, hc, hd, if_neg, if_false,
          List.cons_append, List.nil_append, List.cons.injEq] at h
        obtain ⟨h1, h2, h3⟩ := h
        have hcd : c.toNat = d.toNat := by
          have hc2 := Nat.div_add_mod (c.toNat - 0x10000) 0x400
          have hd2 := Nat.div_add_mod (d.toNat - 0x10000) 0x400
          omega
        rw [char_eq_of_toNat_eq hcd]
        rw [ih t' h3]

/-- String comparison facts, lifted from the unit sequences. -/
theorem jsStrLt_irrefl (k : String) : jsStrLt k k = false :=
  unitsLt_irrefl _

theorem jsStrLt_asymm {k₁ k₂ : String} (h : jsStrLt k₁ k₂ = true) :
    jsStrLt k₂ k₁ = false :=
  unitsLt_asymm _ _ h

theorem jsStrLt_trans {k₁ k₂ k₃ : String} (h1 : jsStrLt k₁ k₂ = true)
    (h2 : jsStrLt k₂ k₃ = true) : jsStrLt k₁ k₃ = true :=
  unitsLt_trans _ _ _ h1 h2

theorem jsStrLt_total {k₁ k₂ : String} (h : ¬ k₁ = k₂) :
    jsStrLt k₁ k₂ = true ∨ jsStrLt k₂ k₁ = true := by
  refine unitsLt_total _ _ ?_
  intro h2
  exact h (String.ext (utf16_flatten_inj k₁.data k₂.data h2))

/-- Entry order used below: `x` may precede `y` when `y`'s key is not
strictly below `x`'s. -/
def entryLe (x y : String × Json) : Prop := jsStrLt y.1 x.1 = false

/-- Members of an insertion come from the inserted entry or the list. -/
theorem mem_insertEntry {e f : String × Json} :
    ∀ {m : List (String × Json)}, f ∈ insertEntry e m → f = e ∨ f ∈ m := by
  intro m
  induction m with
  | nil => intro h; exact Or.inl (List.mem_singleton.mp h)
  | cons g t ih =>
    intro h
    unfold insertEntry at h
    by_cases hlt : jsStrLt e.1 g.1
    · rw [if_pos hlt] at h
      rcases List.mem_cons.mp h with rfl | h2
      · exact Or.inl rfl
      · exact Or.inr h2
    · rw [if_neg hlt] at h
      rcases List.mem_cons.mp h with rfl | h2
      · exact Or.inr (List.mem_cons_self _ _)
      · rcases ih h2 with h3 | h3
        · exact Or.inl h3
        · exact Or.inr (List.mem_cons_of_mem _ h3)

/-- Insertion is a permutation of consing. -/
theorem insertEntry_perm (e : String × Json) :
    ∀ m : List (String × Json), (insertEntry e m).Perm (e :: m) := by
  intro m
  induction m with
  | nil => exact List.Perm.refl _
  | cons g t ih =>
    unfold insertEntry
    by_cases hlt : jsStrLt e.1 g.1
    · rw [if_pos hlt]
    · rw [if_neg hlt]
      exact ((ih.cons g).trans (List.Perm.swap e g t))

/-- `sortEntries` permutes its input. -/
theorem sortEntries_perm : ∀ m : List (String × Json),
    (sortEntries m).Perm m := by
  intro m
  induction m with
  | nil => exact List.Perm.refl _
  | cons e t ih =>
    unfold sortEntries
    exact (insertEntry_perm e (sortEntries t)).trans (ih.cons e)

/-- Insertion preserves sortedness. -/
theorem insertEntry_pairwise {e : String × Json} :
    ∀ {m : List (String × Json)}, m.Pairwise entryLe →
      (insertEntry e m).Pairwise entryLe := by
  intro m
  induction m with
  | nil => intro _; simp [insertEntry, List.pairwise_cons]
  | cons g t ih =>
    intro h
    rw [List.pairwise_cons] at h
    unfold insertEntry
    by_cases hlt : jsStrLt e.1 g.1
    · rw [if_pos hlt]
      rw [List.pairwise_cons]
      constructor
      · intro y hy
        rcases List.mem_cons.mp hy with rfl | hy2
        · exact jsStrLt_asymm (by simpa using hlt)
        · show jsStrLt y.1 e.1 = false
          cases hyx : jsStrLt y.1 e.1 with
          | false => rfl
          | true =>
            have h4 := jsStrLt_trans hyx (by simpa using hlt)
            have h5 := h.1 y hy2
            rw [h5] at h4
            cases h4
      · rw [List.pairwise_cons]
        exact h
    · rw [if_neg hlt]
      rw [List.pairwise_cons]
      constructor
      · intro y hy
        rcases mem_insertEntry hy with rfl | hy2
        · show jsStrLt y.1 g.1 = false
          simpa using hlt
        · exact h.1 y hy2
      · exact ih h.2

/-- The output of `sortEntries` is sorted. -/
theorem sortEntries_pairwise : ∀ m : List (String × Json),
    (sortEntries m).Pairwise entryLe := by
  intro m
  induction m with
  | nil => simp [sortEntries]
  | cons e t ih =>
    unfold sortEntries
    exact insertEntry_pairwise ih

/-- Two sorted entry lists with duplicate-free keys that are
permutations of each other are equal. -/
theorem sorted_perm_eq : ∀ (m₁ m₂ : List (String × Json)),
    m₁.Perm m₂ → m₁.Pairwise entryLe → m₂.Pairwise entryLe →
    (m₁.map Prod.fst).Nodup → m₁ = m₂ := by
  intro m₁
  induction m₁ with
  | nil =>
    intro m₂ h _ _ _
    exact (h.symm.eq_nil).symm
  | cons x t₁ ih =>
    intro m₂ h hp₁ hp₂ hnd
    cases m₂ with
    | nil => cases h.eq_nil
    | cons y t₂ =>
      rw [List.pairwise_cons] at hp₁ hp₂
      rw [List.map_cons, List.nodup_cons] at hnd
      have hxy : x = y := by
        rcases List.mem_cons.mp (h.mem_iff.mp (List.mem_cons_self x t₁))
          with h1 | h1
        · exact h1
        rcases List.mem_cons.mp (h.symm.mem_iff.mp
          (List.mem_cons_self y t₂)) with h2 | h2
        · exact h2.symm
        have hSxy : jsStrLt y.1 x.1 = false := hp₁.1 y h2
        have hSyx : jsStrLt x.1 y.1 = false := hp₂.1 x h1
        have hkeys : ¬ x.1 = y.1 := by
          intro hk
          exact hnd.1 (hk ▸ List.mem_map_of_mem Prod.fst h2)
        rcases jsStrLt_total hkeys with h3 | h3
        · rw [hSyx] at h3; cases h3
        · rw [hSxy] at h3; cases h3
      subst hxy
      have htails := h.cons_inv
      rw [ih t₂ htails hp₁.2 hp₂.2 hnd.2]

/-- Setting an absent key appends the entry. -/
theorem mapSet_append_of_not_mem {α : Type} {m : List (String × α)}
    {k : String} {v : α} (h : ¬ k ∈ m.map Prod.fst) :
    mapSet m k v = m ++ [(k, v)] := by
  induction m with
  | nil => rfl
  | cons f t ih =>
    unfold mapSet
    have hf : ¬ f.1 = k := by
      intro hk
      exact h (hk ▸ List.mem_map_of_mem Prod.fst (List.mem_cons_self f t))
    rw [if_neg hf]
    rw [ih (fun h2 => h (List.mem_cons_of_mem _ h2))]
    simp

/-- With duplicate-free keys, deduplication is the identity. -/
theorem dedupEntries_eq_self {m : List (String × Json)}
    (h : (m.map Prod.fst).Nodup) : dedupEntries m = m := by
  suffices H : ∀ (m : List (String × Json)) (acc : List (String × Json)),
      (acc.map Prod.fst ++ m.map Prod.fst).Nodup →
      m.foldl (fun a e => mapSet a e.1 e.2) acc = acc ++ m by
    have h2 := H m [] (by simpa using h)
    simpa [dedupEntries] using h2
  intro m
  induction m with
  | nil => intro acc _; simp
  | cons e t ih =>
    intro acc hacc
    have hknotin : ¬ e.1 ∈ acc.map Prod.fst := by
      intro hmem
      have := (List.nodup_append.mp hacc).2.2
      exact this hmem (by simp)
    rw [List.foldl_cons]
    rw [mapSet_append_of_not_mem hknotin]
    have hrec := ih (acc ++ [(e.1, e.2)]) (by
      simpa [List.append_assoc] using hacc)
    rw [hrec]
    simp

/- The spec's "two inputs differing only by key ordering within any JSON
object": the relation that recursively permutes the entry lists of
objects (with duplicate-free keys, as `JSON.parse` produces them) and
leaves everything else intact. -/
mutual

/-- AST equivalence up to recursive object-entry permutation. -/
inductive Same : Json → Json → Prop
  | null : Same .null .null
  | bool (b : Bool) : Same (.bool b) (.bool b)
  | num (lit : List Char) : Same (.num lit) (.num lit)
  | str (s : List Char) : Same (.str s) (.str s)
  | arr {l₁ l₂ : List Json} : SameList l₁ l₂ → Same (.arr l₁) (.arr l₂)
  | obj {l₁ l l₂ : List (String × Json)} :
      SameEntries l₁ l → l.Perm l₂ → (l₁.map Prod.fst).Nodup →
      Same (.obj l₁) (.obj l₂)

/-- Element-wise `Same` on arrays. -/
inductive SameList : List Json → List Json → Prop
  | nil : SameList [] []
  | cons {a b : Json} {l₁ l₂ : List Json} :
      Same a b → SameList l₁ l₂ → SameList (a :: l₁) (b :: l₂)

/-- Entry-wise `Same`: equal keys, `Same` values. -/
inductive SameEntries :
    List (String × Json) → List (String × Json) → Prop
  | nil : SameEntries [] []
  | cons {a b : String × Json} {l₁ l₂ : List (String × Json)} :
      a.1 = b.1 → Same a.2 b.2 → SameEntries l₁ l₂ →
      SameEntries (a :: l₁) (b :: l₂)

end

/-- Entry-wise related lists have equal key sequences. -/
theorem sameEntries_keys : ∀ {l₁ l₂ : List (String × Json)},
    SameEntries l₁ l₂ → l₁.map Prod.fst = l₂.map Prod.fst
  | _, _, .nil => rfl
  | _, _, .cons hk _ ht => by
    simp only [List.map_cons]
    rw [hk, sameEntries_keys ht]

/-- The canonical entry list is invariant under entry permutation with
duplicate-free keys. -/
theorem obj_canon_eq (l l₂ : List (String × Json)) (hperm : l.Perm l₂)
    (hnd : (l.map Prod.fst).Nodup) :
    sortEntries (dedupEntries (sortObjVals l)) =
      sortEntries (dedupEntries (sortObjVals l₂)) := by
  have hmap : ∀ m : List (String × Json),
      sortObjVals m = m.map (fun e => (e.1, sortObjectKeys e.2)) := by
    intro m
    induction m with
    | nil => rfl
    | cons e t ih => simp only [sortObjVals, List.map_cons, ih]
  have hkeys : ∀ m : List (String × Json),
      (sortObjVals m).map Prod.fst = m.map Prod.fst := by
    intro m
    rw [hmap m, List.map_map]
    rfl
  have hperm2 : (sortObjVals l).Perm (sortObjVals l₂) := by
    rw [hmap l, hmap l₂]
    exact hperm.map _
  have hnd1 : ((sortObjVals l).map Prod.fst).Nodup := by
    rw [hkeys l]; exact hnd
  have hnd2 : ((sortObjVals l₂).map Prod.fst).Nodup := by
    rw [hkeys l₂]
    exact ((hperm.map Prod.fst).nodup_iff).mp hnd
  rw [dedupEntries_eq_self hnd1, dedupEntries_eq_self hnd2]
  refine sorted_perm_eq _ _ ?_ (sortEntries_pairwise _)
    (sortEntries_pairwise _) ?_
  · exact ((sortEntries_perm _).trans hperm2).trans
      (sortEntries_perm _).symm
  · exact (((sortEntries_perm (sortObjVals l)).map Prod.fst).nodup_iff).mpr
      hnd1

mutual

/-- `Same` ASTs have equal key-sorted forms. -/
theorem same_sort : ∀ {a b : Json}, Same a b →
    sortObjectKeys a = sortObjectKeys b
  | _, _, .null => rfl
  | _, _, .bool _ => rfl
  | _, _, .num _ => rfl
  | _, _, .str _ => rfl
  | _, _, .arr h => by
    simp only [sortObjectKeys]
    rw [sameList_sort h]
  | _, _, .obj hpt hperm hnd => by
    simp only [sortObjectKeys]
    rw [sameEntries_sort hpt]
    congr 1
    refine obj_canon_eq _ _ hperm ?_
    rw [← sameEntries_keys hpt]
    exact hnd

/-- `sortArrVals` respects `SameList`. -/
theorem sameList_sort : ∀ {l₁ l₂ : List Json}, SameList l₁ l₂ →
    sortArrVals l₁ = sortArrVals l₂
  | _, _, .nil => rfl
  | _, _, .cons h ht => by
    simp only [sortArrVals]
    rw [same_sort h, sameList_sort ht]

/-- `sortObjVals` respects `SameEntries`. -/
theorem sameEntries_sort : ∀ {l₁ l₂ : List (String × Json)},
    SameEntries l₁ l₂ → sortObjVals l₁ = sortObjVals l₂
  | _, _, .nil => rfl
  | _, _, .cons hk hv ht => by
    simp only [sortObjVals]
    rw [hk, same_sort hv, sameEntries_sort ht]

end

/-- Lowercasing leaves whitespace unchanged (only `A`-`Z` move). -/
theorem toLower_of_ws {c : Char} (h : isWs c = true) :
    Char.toLower c = c := by
  simp only [isWs, decide_eq_true_eq] at h
  unfold Char.toLower
  rw [if_neg (by omega)]

/-- Lowercasing leaves non-word characters unchanged. -/
theorem toLower_of_not_word {c : Char} (h : isWordChar c = false) :
    Char.toLower c = c := by
  simp only [isWordChar, decide_eq_false_iff_not] at h
  push_neg at h
  unfold Char.toLower
  rw [if_neg (by omega)]

/-- Inserting a whitespace character directly after an existing one does
not change the collapsed form (both functions of the mutual pair). -/
theorem collapse_ws_insert_after : ∀ (x v : List Char) (c d : Char),
    isWs c = true → isWs d = true →
    collapseWs (x ++ c :: d :: v) = collapseWs (x ++ c :: v) ∧
    collapseAfterWs (x ++ c :: d :: v) = collapseAfterWs (x ++ c :: v) := by
  intro x
  induction x with
  | nil =>
    intro v c d hc hd
    constructor
    · simp [collapseWs, collapseAfterWs, hc, hd]
    · simp [collapseAfterWs, hc, hd]
  | cons a x' ih =>
    intro v c d hc hd
    constructor
    · simp only [List.cons_append, collapseWs]
      by_cases ha : isWs a
      · simp [ha, (ih v c d hc hd).2]
      · simp [ha, (ih v c d hc hd).1]
    · simp only [List.cons_append, collapseAfterWs]
      by_cases ha : isWs a
      · simp [ha, (ih v c d hc hd).2]
      · simp [ha, (ih v c d hc hd).1]

/-- Inserting a whitespace character directly before an existing one
does not change the collapsed form. -/
theorem collapse_ws_insert_before : ∀ (x v : List Char) (c d : Char),
    isWs c = true → isWs d = true →
    collapseWs (x ++ d :: c :: v) = collapseWs (x ++ c :: v) ∧
    collapseAfterWs (x ++ d :: c :: v) = collapseAfterWs (x ++ c :: v) := by
  intro x
  induction x with
  | nil =>
    intro v c d hc hd
    constructor
    · simp [collapseWs, collapseAfterWs, hc, hd]
    · simp [collapseAfterWs, hc, hd]
  | cons a x' ih =>
    intro v c d hc hd
    constructor
    · simp only [List.cons_append, collapseWs]
      by_cases ha : isWs a
      · simp [ha, (ih v c d hc hd).2]
      · simp [ha, (ih v c d hc hd).1]
    · simp only [List.cons_append, collapseAfterWs]
      by_cases ha : isWs a
      · simp [ha, (ih v c d hc hd).2]
      · simp [ha, (ih v c d hc hd).1]

/-- One elementary difference the spec allows between two texts: a case
change, a whitespace character added inside an existing whitespace run
(after or before one of its characters), or trailing punctuation
(characters that are neither word characters nor whitespace) appended. -/
inductive TextStep : List Char → List Char → Prop
  | case (a b : List Char)
      (h : a.map Char.toLower = b.map Char.toLower) : TextStep a b
  | wsInsertAfter (u v : List Char) (c d : Char)
      (hc : isWs c = true) (hd : isWs d = true) :
      TextStep (u ++ c :: v) (u ++ c :: d :: v)
  | wsInsertBefore (u v : List Char) (c d : Char)
      (hc : isWs c = true) (hd : isWs d = true) :
      TextStep (u ++ c :: v) (u ++ d :: c :: v)
  | punct (a p : List Char)
      (hp : ∀ c ∈ p, isWordChar c = false ∧ isWs c = false) :
      TextStep a (a ++ p)

/-- Two texts differing only by case, internal whitespace runs, and
trailing punctuation: a chain of elementary differences in either
direction. -/
def TextRel (a b : List Char) : Prop :=
  Relation.ReflTransGen (fun x y => TextStep x y ∨ TextStep y x) a b

/-- Each elementary difference is invisible to the normalization. -/
theorem textStep_normalize {a b : List Char} (h : TextStep a b) :
    normalizeText a = normalizeText b := by
  cases h with
  | case a b h =>
    unfold normalizeText
    rw [h]
  | wsInsertAfter u v c d hc hd =>
    unfold normalizeText
    congr 1
    simp only [List.map_append, List.map_cons, List.filter_append,
      List.filter_cons, toLower_of_ws hc, toLower_of_ws hd, hc, hd,
      or_true, if_true]
    exact (collapse_ws_insert_after _ _ c d hc hd).1.symm
  | wsInsertBefore u v c d hc hd =>
    unfold normalizeText
    congr 1
    simp only [List.map_append, List.map_cons, List.filter_append,
      List.filter_cons, toLower_of_ws hc, toLower_of_ws hd, hc, hd,
      or_true, if_true]
    exact (collapse_ws_insert_before _ _ c d hc hd).1.symm
  | punct a p hp =>
    unfold normalizeText
    congr 1
    simp only [List.map_append, List.filter_append]
    have hnil : (p.map Char.toLower).filter
        (fun c => decide (isWordChar c = true ∨ isWs c = true)) = [] := by
      rw [List.filter_eq_nil_iff]
      intro c hc
      rcases List.mem_map.mp hc with ⟨e, he, hce⟩
      have h1 := (hp e he).1
      have h2 := (hp e he).2
      rw [← hce, toLower_of_not_word h1]
      simp [h1, h2]
    rw [hnil, List.append_nil]

/-- Chains of elementary differences are invisible to the
normalization. -/
theorem textRel_normalize {a b : List Char} (h : TextRel a b) :
    normalizeText a = normalizeText b := by
  induction h with
  | refl => rfl
  | tail _ hstep ih =>
    rcases hstep with hstep | hstep
    · exact ih.trans (textStep_normalize hstep)
    · exact ih.trans (textStep_normalize hstep).symm

/-- C4: for every pair of proposal inputs whose parsed `logic_ast`s
differ only by key ordering within any JSON object (`Same`, which
requires duplicate-free keys as `JSON.parse` guarantees) and whose texts
differ only by letter case, by whitespace inserted into existing internal
whitespace runs, or by trailing punctuation (`TextRel`), `canonicalize`
produces identical bytes and an identical hash. -/
theorem claim4_canonicalization_stability
    (sha256hex : List Char → String) (p₁ p₂ : Proposal)
    (ast₁ ast₂ : Json)
    (h₁ : p₁.logic_ast = Except.ok ast₁)
    (h₂ : p₂.logic_ast = Except.ok ast₂)
    (hast : Same ast₁ ast₂) (htext : TextRel p₁.text p₂.text) :
    canonicalBytes ast₁ p₁.text = canonicalBytes ast₂ p₂.text ∧
    canonicalize sha256hex p₁ = canonicalize sha256hex p₂ := by
  have hb : canonicalBytes ast₁ p₁.text = canonicalBytes ast₂ p₂.text := by
    unfold canonicalBytes
    rw [same_sort hast, textRel_normalize htext]
  refine ⟨hb, ?_⟩
  unfold canonicalize
  rw [h₁, h₂]
  simp only [hb]

/-- Witness: swapping the two keys of an object and changing the text by
case, a doubled internal space, and a trailing `!` leaves the canonical
bytes and hash unchanged. -/
theorem claim4_canonicalization_stability_witness :
    canonicalBytes (Json.obj [("b", Json.num ['1']), ("a", Json.null)])
        ['h', 'i', ' ', 'a'] =
      canonicalBytes (Json.obj [("a", Json.null), ("b", Json.num ['1'])])
        ['H', 'i', ' ', ' ', 'a', '!'] ∧
    canonicalize (fun _ => "h")
        { proposer := "x"
          logic_ast :=
            Except.ok (Json.obj [("b", Json.num ['1']), ("a", Json.null)])
          text := ['h', 'i', ' ', 'a']
          layer := GovernanceLayer.L2Operational } =
      canonicalize (fun _ => "h")
        { proposer := "y"
          logic_ast :=
            Except.ok (Json.obj [("a", Json.null), ("b", Json.num ['1'])])
          text := ['H', 'i', ' ', ' ', 'a', '!']
          layer := GovernanceLayer.L2Operational } := by
  have hsame : Same (Json.obj [("b", Json.num ['1']), ("a", Json.null)])
      (Json.obj [("a", Json.null), ("b", Json.num ['1'])]) :=
    Same.obj (.cons rfl (.num _) (.cons rfl .null .nil))
      (List.Perm.swap ("a", Json.null) ("b", Json.num ['1']) [])
      (by decide)
  have s1 : TextStep ['h', 'i', ' ', 'a'] ['H', 'i', ' ', 'a'] :=
    .case _ _ (by decide)
  have s2 : TextStep ['H', 'i', ' ', 'a'] ['H', 'i', ' ', ' ', 'a'] :=
    TextStep.wsInsertAfter ['H', 'i'] ['a'] ' ' ' ' (by decide) (by decide)
  have s3 : TextStep ['H', 'i', ' ', ' ', 'a']
      ['H', 'i', ' ', ' ', 'a', '!'] := by
    have h := TextStep.punct ['H', 'i', ' ', ' ', 'a'] ['!']
      (by decide)
    simpa using h
  have hrel : TextRel ['h', 'i', ' ', 'a'] ['H', 'i', ' ', ' ', 'a', '!'] :=
    Relation.ReflTransGen.tail
      (Relation.ReflTransGen.tail
        (Relation.ReflTransGen.tail Relation.ReflTransGen.refl (Or.inl s1))
        (Or.inl s2))
      (Or.inl s3)
  exact claim4_canonicalization_stability (fun _ => "h")
    { proposer := "x"
      logic_ast :=
        Except.ok (Json.obj [("b", Json.num ['1']), ("a", Json.null)])
      text := ['h', 'i', ' ', 'a']
      layer := GovernanceLayer.L2Operational }
    { proposer := "y"
      logic_ast :=
        Except.ok (Json.obj [("a", Json.null), ("b", Json.num ['1'])])
      text := ['H', 'i', ' ', ' ', 'a', '!']
      layer := GovernanceLayer.L2Operational }
    _ _ rfl rfl hsame hrel

end DAO
